import Mathlib

/-!
# Verification of djblets behavioral claims

A shallow embedding, in Lean 4, of the parts of the djblets library that the
frozen claims are about:

* `SettingListWrapper` (djblets/extensions/manager.py) — ref-counted mutation
  of a shared settings list;
* the extension-manager state machine (`enable_extension`,
  `disable_extension`, `_init_extension`, `_uninit_extension`,
  `_uninstall_extension`, `_bump_sync_gen`) from djblets/extensions/manager.py;
* `install_extension_media` (djblets/extensions/manager.py) — file-locked
  static-media installation with retry;
* `SiteConfiguration.get/set/add_defaults` (djblets/siteconfig/models.py);
* `AnyOperator.matches` / `UnsetOperator.matches`
  (djblets/conditions/operators.py);
* `is_ratelimited` / `get_usage_count` / `Rate.parse`
  (djblets/auth/ratelimit.py).

Python dictionaries are embedded as association lists with unique keys,
Python exceptions as explicit result values (so that state mutated before a
raise is kept, exactly as in Python), and the process environment (cache
backend, filesystem, file locks) as explicit inputs.
-/

namespace Djblets

/-- Association-list lookup, embedding Python's `dict.get(key)`. -/
def aget {κ β : Type} [DecidableEq κ] : List (κ × β) → κ → Option β
  | [], _ => none
  | (k, v) :: rest, key => if key = k then some v else aget rest key

/-- Association-list update/insert, embedding Python's `d[key] = value`
(updates the existing binding in place, else appends, matching dict
insertion-order semantics). -/
def aset {κ β : Type} [DecidableEq κ] : List (κ × β) → κ → β → List (κ × β)
  | [], key, v => [(key, v)]
  | (k, v') :: rest, key, v =>
    if key = k then (k, v) :: rest else (k, v') :: aset rest key v

/-- Association-list deletion, embedding Python's `del d[key]`. -/
def adel {κ β : Type} [DecidableEq κ] : List (κ × β) → κ → List (κ × β)
  | [], _ => []
  | (k, v) :: rest, key =>
    if key = k then rest else (k, v) :: adel rest key

/-! ## SettingListWrapper (djblets/extensions/manager.py, lines 87–232)

The wrapper holds a mutable list (`self.setting`) and a dict of ref counts
(`self.ref_counts`).  Items are arbitrary Python objects compared by
equality; we embed them as an arbitrary type with decidable equality. -/

structure SettingListWrapper (α : Type) where
  /-- The wrapped settings list (`self.setting`). -/
  setting : List α
  /-- The ref-count dict (`self.ref_counts`). -/
  ref_counts : List (α × Nat)
  deriving Repr, DecidableEq

namespace SettingListWrapper

variable {α : Type} [DecidableEq α]

/-- The constructor: every item of the initial setting list gets ref count 1
(`for item in self.setting: self.ref_counts[item] = 1`). -/
def init (items : List α) : SettingListWrapper α :=
  { setting := items
    ref_counts := items.foldl (fun rc item => aset rc item 1) [] }

/-- The recorded ref count of an item (0 when absent from the dict). -/
def refCount (w : SettingListWrapper α) (item : α) : Nat :=
  (aget w.ref_counts item).getD 0

/-- `SettingListWrapper.add`.  Python's `assert` raises before any mutation;
we return the (unchanged) state together with `false` when the assertion
`item not in self.setting` fails. -/
def add (w : SettingListWrapper α) (item : α) : SettingListWrapper α × Bool :=
  match aget w.ref_counts item with
  | some n => ({ w with ref_counts := aset w.ref_counts item (n + 1) }, true)
  | none =>
    if item ∈ w.setting then
      (w, false)  -- assertion failure: ref count 0 but item in the list
    else
      ({ setting := w.setting ++ [item]
         ref_counts := aset w.ref_counts item 1 }, true)

/-- `SettingListWrapper.remove`.  Returns the new state, whether the item was
removed from the list, and whether the two entry assertions passed (state
unchanged when they did not, since Python raises before mutating). -/
def remove (w : SettingListWrapper α) (item : α) :
    SettingListWrapper α × Bool × Bool :=
  match aget w.ref_counts item with
  | none => (w, false, false)      -- assert item in self.ref_counts fails
  | some n =>
    if item ∈ w.setting then
      if n = 1 then
        ({ setting := w.setting.erase item
           ref_counts := adel w.ref_counts item }, true, true)
      else
        ({ w with ref_counts := aset w.ref_counts item (n - 1) }, false, true)
    else
      (w, false, false)            -- assert item in self.setting fails

/-- `SettingListWrapper.add_list`: adds each item in order. -/
def addList (w : SettingListWrapper α) (items : List α) :
    SettingListWrapper α :=
  items.foldl (fun w item => (w.add item).1) w

/-- `SettingListWrapper.remove_list`: removes each item in order; an
assertion failure aborts the loop (Python propagates the exception), keeping
the mutations already made. -/
def removeList (w : SettingListWrapper α) :
    List α → SettingListWrapper α
  | [] => w
  | item :: rest =>
    match w.remove item with
    | (w', _, true) => w'.removeList rest
    | (w', _, false) => w'

/-- A single wrapper operation, for stating "any sequence of add, add_list,
remove, and remove_list operations". -/
inductive Op (α : Type) where
  | add (item : α)
  | addList (items : List α)
  | remove (item : α)
  | removeList (items : List α)
  deriving Repr

/-- Apply one operation (keeping the state reached when an assertion fires,
exactly as the raised `AssertionError` would leave it). -/
def applyOp (w : SettingListWrapper α) : Op α → SettingListWrapper α
  | .add item => (w.add item).1
  | .addList items => w.addList items
  | .remove item => (w.remove item).1
  | .removeList items => w.removeList items

/-- Apply a sequence of operations. -/
def applyOps (w : SettingListWrapper α) (ops : List (Op α)) :
    SettingListWrapper α :=
  ops.foldl applyOp w

/-- The ref-count/list-membership invariant: an item is in the list iff it
has a dict entry, every dict entry is at least 1, and the list and the dict
keys have no duplicates.  Stated with bounded quantifiers so that it is
decidable on concrete wrappers. -/
def Inv (w : SettingListWrapper α) : Prop :=
  (∀ x ∈ w.setting, x ∈ w.ref_counts.map Prod.fst) ∧
  (∀ x ∈ w.ref_counts.map Prod.fst, x ∈ w.setting) ∧
  (∀ p ∈ w.ref_counts, 1 ≤ p.2) ∧
  w.setting.Nodup ∧ (w.ref_counts.map Prod.fst).Nodup

instance (w : SettingListWrapper α) : Decidable (Inv w) := by
  unfold Inv; infer_instance

end SettingListWrapper

/-! ## Condition operators (djblets/conditions/operators.py, lines 133–213)

`AnyOperator.matches` and `UnsetOperator.matches` act on arbitrary Python
values; the checks performed are `lookup_value in (0, False)` (equality with
the integer 0 or with `False`) and `bool(lookup_value)` (truthiness).  We
embed a universe of Python values closed under those two observations. -/

/-- A universe of Python values sufficient for the operators' two
observations (equality with `0`/`False`, and truthiness). -/
inductive PyVal where
  | int (n : Int)
  | bool (b : Bool)
  | str (s : String)
  | list (len : Nat)
  | dict (len : Nat)
  | pynone
  deriving DecidableEq, Repr

/-- Python truthiness, `bool(value)`. -/
def PyVal.truthy : PyVal → Bool
  | .int n => n != 0
  | .bool b => b
  | .str s => s != ""
  | .list len => len != 0
  | .dict len => len != 0
  | .pynone => false

/-- Python's `value in (0, False)`: membership by `==`, i.e. equality with
the integer 0 or the boolean False (which are themselves `==` in Python;
no string, list, dict or None compares equal to either). -/
def PyVal.inZeroFalseTuple : PyVal → Bool
  | .int n => n == 0
  | .bool b => b == false
  | _ => false

/-- `AnyOperator.matches` (operators.py line 172):
`return lookup_value in (0, False) or bool(lookup_value)`. -/
def anyOperatorMatches (lookupValue conditionValue : PyVal) : Bool :=
  lookupValue.inZeroFalseTuple || lookupValue.truthy

/-- `UnsetOperator.matches` (operators.py line 213):
`return lookup_value not in (0, False) and not lookup_value`. -/
def unsetOperatorMatches (lookupValue conditionValue : PyVal) : Bool :=
  !lookupValue.inZeroFalseTuple && !lookupValue.truthy

/-! ## Login rate limiting (djblets/auth/ratelimit.py)

`Rate.parse` applies the regular expression `(\d+)/(\d*)([smhd])?` with
`re.match` semantics (anchored at the start, trailing input ignored).
`get_usage_count` reads/increments a per-user counter in the Django cache;
we embed the cache cell for the derived key as an explicit `Option Nat`
(the value stored under the key, if any).  `time_left` depends on the wall
clock and is not part of any claim, so it is not embedded. -/

/-- `DEFAULT_LOGIN_LIMIT_RATE = '5/m'` (ratelimit.py line 21). -/
def DEFAULT_LOGIN_LIMIT_RATE : String := "5/m"

/-- A parsed rate (`Rate(count, seconds)`). -/
structure Rate where
  count : Nat
  seconds : Nat
  deriving DecidableEq, Repr

/-- `Rate.PERIODS[c]` for the optional period character; `none` when the
character is not one of `smhd` (so the regex group `([smhd])?` matched
nothing there). -/
def periodSeconds (c : Char) : Option Nat :=
  if c = 's' then some 1
  else if c = 'm' then some 60
  else if c = 'h' then some (60 * 60)
  else if c = 'd' then some (24 * 60 * 60)
  else none

/-- Numeric value of a string of decimal digits (`int(...)`). -/
def digitsToNat (ds : List Char) : Nat :=
  ds.foldl (fun n c => n * 10 + (c.toNat - 48)) 0

/-- `Rate.parse` (ratelimit.py lines 189–220): match
`(\d+)/(\d*)([smhd])?` at the start of the string; `none` embeds the
`ValueError` raised when the regex does not match.  `seconds` starts from
`PERIODS[period or 's']` and is multiplied by the multiplier when the
multiplier group is non-empty. -/
def Rate.parse (rateStr : String) : Option Rate :=
  let cs := rateStr.data
  match cs.span Char.isDigit with
  | ([], _) => none                     -- (\d+) requires at least one digit
  | (d1, rest) =>
    match rest with
    | '/' :: rest2 =>
      let (d2, rest3) := rest2.span Char.isDigit
      let baseSeconds :=
        match rest3 with
        | c :: _ => (periodSeconds c).getD 1  -- ([smhd])? optional group
        | [] => 1
      let seconds :=
        if d2.isEmpty then baseSeconds else baseSeconds * digitsToNat d2
      some { count := digitsToNat d1, seconds := seconds }
    | _ => none                         -- literal '/' missing: no match

/-- `get_usage_count` (ratelimit.py lines 96–163), embedded over the cache
cell for the derived key.  Returns `(count, limit, new cache cell)`; `none`
embeds the `ImproperlyConfigured` raised when `LOGIN_LIMIT_RATE` cannot be
parsed.  When incrementing, `cache.incr` raises `ValueError` on a missing
key, upon which `cache.add(cache_key, 1)` runs and the count is re-fetched
with `cache.get(cache_key, 0)`. -/
def getUsageCount (loginLimitRate : Option String) (cached : Option Nat)
    (increment : Bool) : Option (Nat × Nat × Option Nat) :=
  match Rate.parse (loginLimitRate.getD DEFAULT_LOGIN_LIMIT_RATE) with
  | none => none
  | some rate =>
    let limit := rate.count
    match increment, cached with
    | true, some n => some (n + 1, limit, some (n + 1))
    | true, none => some (1, limit, some 1)
    | false, _ => some (cached.getD 0, limit, cached)

/-- `is_ratelimited` (ratelimit.py lines 74–93):
`usage['count'] >= usage['limit']`. -/
def isRatelimited (loginLimitRate : Option String) (cached : Option Nat)
    (increment : Bool) : Option Bool :=
  (getUsageCount loginLimitRate cached increment).map
    (fun r => r.2.1 ≤ r.1)

/-! ## SiteConfiguration (djblets/siteconfig/models.py, lines 90–132)

`settings` is the JSON dict field; `_DEFAULTS` is the module-level dict
keyed by the configuration's database id.  Values are embedded as an
arbitrary type; the result `none` embeds a Python `None` result (the
stored values themselves are non-None objects, and the code never
distinguishes a stored `None` when reading). -/

/-- A `SiteConfiguration` row: its database id and its `settings` dict. -/
structure SiteConfiguration (α : Type) where
  id : Nat
  settings : List (String × α)

/-- The module-level `_DEFAULTS` dict, keyed by configuration id. -/
def DefaultsTable (α : Type) : Type := List (Nat × List (String × α))

/-- `SiteConfiguration.get` (models.py lines 90–99):
`if default is None and self.id in _DEFAULTS:
   default = _DEFAULTS[self.id].get(key, None)`
then `return self.settings.get(key, default)`. -/
def SiteConfiguration.get {α : Type} (defaults : DefaultsTable α)
    (sc : SiteConfiguration α) (key : String) (default : Option α) :
    Option α :=
  let default :=
    match default with
    | none =>
      match aget defaults sc.id with
      | some d => aget d key
      | none => none
    | some v => some v
  match aget sc.settings key with
  | some v => some v
  | none => default

/-- `SiteConfiguration.set` (models.py lines 101–106):
`self.settings[key] = value`. -/
def SiteConfiguration.set {α : Type} (sc : SiteConfiguration α)
    (key : String) (value : α) : SiteConfiguration α :=
  { sc with settings := aset sc.settings key value }

/-- `SiteConfiguration.add_defaults` (models.py lines 108–117):
`_DEFAULTS.setdefault(self.id, {}).update(defaults_dict)`. -/
def SiteConfiguration.addDefaults {α : Type} (defaults : DefaultsTable α)
    (sc : SiteConfiguration α) (defaultsDict : List (String × α)) :
    DefaultsTable α :=
  let cur := (aget defaults sc.id).getD []
  aset defaults sc.id (defaultsDict.foldl (fun d p => aset d p.1 p.2) cur)

/-- `SiteConfiguration.add_default` (models.py lines 119–123):
`self.add_defaults({key: default_value})`. -/
def SiteConfiguration.addDefault {α : Type} (defaults : DefaultsTable α)
    (sc : SiteConfiguration α) (key : String) (defaultValue : α) :
    DefaultsTable α :=
  sc.addDefaults defaults [(key, defaultValue)]

/-! ## install_extension_media (djblets/extensions/manager.py, lines 828–930)

The filesystem and the cross-process file lock are embedded as explicit
inputs: the initial content of the `.version` stamp file, and a trace of
lock-acquisition attempts (each giving the `errno` of a failed
`locks.lock(f, LOCK_EX | LOCK_NB)` call or success, the stamp content seen
on the re-read after a failed attempt, and whether writing the stamp
succeeds).  The final `os.unlink(lockfile)` only logs on failure and leaves
no state a claim depends on. -/

/-- `errno.EAGAIN` on Linux. -/
def EAGAIN : Nat := 11
/-- `errno.EACCES` on Linux. -/
def EACCES : Nat := 13
/-- `errno.EINTR` on Linux. -/
def EINTR : Nat := 4

/-- The static inputs of `install_extension_media`. -/
structure MediaCfg where
  /-- `tempfile.gettempdir()`. -/
  tmpdir : String
  /-- `ext_class.id`. -/
  extId : String
  /-- `ext_class.info.version`. -/
  curVersion : String
  /-- `ext_class.registration.installed`. -/
  regInstalled : Bool
  /-- `self.should_install_static_media`. -/
  shouldInstall : Bool
  /-- The `force` argument. -/
  force : Bool
  deriving Repr, DecidableEq

/-- One iteration's environment: the outcome of the `locks.lock` call, the
stamp-file content observed if re-read after a failure (`none`: the file
does not exist), and whether writing the stamp file succeeds (an `IOError`
there is caught and only logged). -/
structure LockAttempt where
  lockErrno : Option Nat
  versionOnRetry : Option String
  writeOk : Bool
  deriving Repr, DecidableEq

/-- Which control path `install_extension_media` returned through. -/
inductive MediaOutcome where
  | skippedStaticMedia
  | upToDate
  | completed
  deriving Repr, DecidableEq

/-- Observable effects of a run of `install_extension_media`. -/
structure MediaTrace where
  /-- The path of the lock file used. -/
  lockfile : String
  /-- How many times `_install_extension_media_internal` ran. -/
  installs : Nat
  /-- How many times `time.sleep(1)` ran. -/
  sleeps : Nat
  /-- The final content of the `.version` stamp file (`none`: absent). -/
  diskVersion : Option String
  deriving Repr, DecidableEq

/-- Errors escaping `install_extension_media`: a propagated `IOError` from
`locks.lock`, or exhaustion of the supplied environment trace (the loop is
still running). -/
inductive MediaError where
  | ioError (errno : Nat)
  | envExhausted
  deriving Repr, DecidableEq

/-- `os.path.join(tempfile.gettempdir(), ext_class.id + '.lock')`
(manager.py line 846). -/
def mediaLockfile (cfg : MediaCfg) : String :=
  cfg.tmpdir ++ "/" ++ (cfg.extId ++ ".lock")

/-- The `while old_version != cur_version` loop (manager.py lines 884–919).
On a lock failure with errno `EAGAIN`, `EACCES` or `EINTR`: sleep one
second, re-read the stamp file if it exists, and retry; any other errno
re-raises the `IOError`.  With the lock held: run the internal install,
try to write the stamp (failure caught and logged), set
`old_version = cur_version`, and unlock. -/
def installMediaLoop (cfg : MediaCfg) (oldVersion diskVersion : Option String)
    (installs sleeps : Nat) (env : List LockAttempt) :
    Except MediaError MediaTrace :=
  if oldVersion = some cfg.curVersion then
    .ok { lockfile := mediaLockfile cfg, installs := installs,
          sleeps := sleeps, diskVersion := diskVersion }
  else
    match env with
    | [] => .error .envExhausted
    | att :: rest =>
      match att.lockErrno with
      | some e =>
        if e = EAGAIN ∨ e = EACCES ∨ e = EINTR then
          let oldVersion' :=
            match att.versionOnRetry with
            | some s => some s
            | none => oldVersion
          installMediaLoop cfg oldVersion' att.versionOnRetry
            installs (sleeps + 1) rest
        else
          .error (.ioError e)
      | none =>
        let diskVersion' :=
          if att.writeOk then some cfg.curVersion else diskVersion
        installMediaLoop cfg (some cfg.curVersion) diskVersion'
          (installs + 1) sleeps rest

/-- `install_extension_media` (manager.py lines 828–930).  `versionFile` is
the initial content of the `.version` stamp file (`none`: absent). -/
def installExtensionMedia (cfg : MediaCfg) (versionFile : Option String)
    (env : List LockAttempt) :
    Except MediaError (MediaOutcome × MediaTrace) :=
  if cfg.shouldInstall = false then
    .ok (.skippedStaticMedia,
         { lockfile := mediaLockfile cfg, installs := 0, sleeps := 0,
           diskVersion := versionFile })
  else
    if cfg.force = false ∧
        (if cfg.force then none
         else if cfg.regInstalled then versionFile else none) =
          some cfg.curVersion then
      .ok (.upToDate,
           { lockfile := mediaLockfile cfg, installs := 0, sleeps := 0,
             diskVersion := versionFile })
    else
      (installMediaLoop cfg
        (if cfg.force then none
         else if cfg.regInstalled then versionFile else none)
        versionFile 0 0 env).map
        (fun t => (.completed, t))

/-! ## The extension-manager state machine
(djblets/extensions/manager.py, `ExtensionManager`)

The manager's dictionaries (`_extension_classes`, `_extension_instances`,
`_load_errors`), the `RegisteredExtension` database rows, the per-extension
settings key `_extension_installed_version`, and the two
`SettingListWrapper`s are embedded as explicit state.  Python exceptions
keep the mutations made before the raise, so every operation returns its
final state, the list of emitted side-effect events, and a result.

Not embedded (pure Django glue no claim depends on): admin sites and admin
URL patterns, Pipeline bundle contents (only registration/unregistration
events are kept), the app-registry cache pruning in
`_remove_from_installed_apps`, signals' receivers, and the *contents* of
the recalculated middleware list (only the fact of recalculation is kept).
Extension versions are embedded as naturals ordered as
`pkg_resources.parse_version` orders the version strings. -/

/-- A `RegisteredExtension` database row's fields used by the manager. -/
structure Registration where
  enabled : Bool
  installed : Bool
  deriving Repr, DecidableEq

/-- An installed extension class: its declared data and the behavior of its
plugin code during enabling. -/
structure ExtensionClass where
  /-- `Extension.requirements`: ids of required extensions. -/
  requirements : List String
  /-- `Extension.apps` (empty means falsy: fall back to `info.app_name`). -/
  apps : List String
  /-- `extension.info.app_name`. -/
  appName : String
  /-- `Extension.context_processors`. -/
  contextProcessors : List String
  /-- `extension.info.version` (ordered as `parse_version` orders). -/
  version : Nat
  /-- Whether `ext_class(extension_manager=self)` raises. -/
  ctorRaises : Bool
  /-- Whether `install_extension_media` raises `InstallExtensionError`. -/
  mediaInstallRaises : Bool
  /-- Whether `_migrate_extension_models` raises `InstallExtensionError`. -/
  migrateRaises : Bool
  deriving Repr, DecidableEq

/-- The manager state the claims are about. -/
structure MgrState where
  /-- `_extension_classes` (keys are extension ids). -/
  classes : List (String × ExtensionClass)
  /-- The keys of `_extension_instances`, in insertion order. -/
  instances : List String
  /-- The keys of `_load_errors`. -/
  loadErrors : List String
  /-- The `RegisteredExtension` rows, keyed by `class_name`. -/
  registrations : List (String × Registration)
  /-- The per-extension `_extension_installed_version` settings key. -/
  extVersions : List (String × Nat)
  /-- The `INSTALLED_APPS` wrapper. -/
  installedApps : SettingListWrapper String
  /-- The context-processors wrapper. -/
  contextProcessors : SettingListWrapper String
  /-- The generation synchronizer's counter (`_gen_sync.sync_gen`). -/
  syncGen : Nat
  /-- `settings.AJAX_SERIAL`. -/
  ajaxSerial : Nat
  /-- `_block_sync_gen`. -/
  blockSyncGen : Bool
  deriving Repr, DecidableEq

/-- Side-effect events, in program order.  `initialized id` is emitted at
the point the instance is stored into `_extension_instances`;
`uninitialized id` at the `del self._extension_instances[extension.id]`. -/
inductive Event where
  | initialized (id : String)
  | uninitialized (id : String)
  | uninstalled (id : String)
  | savedRegistration (id : String)
  | clearedTemplateCaches
  | clearedTemplateTagCaches
  | bumpedSyncGen
  | recalculatedMiddleware
  | syncedDatabase (id : String)
  | registeredStaticBundles (id : String)
  | unregisteredStaticBundles (id : String)
  | shutdownSent (id : String)
  deriving Repr, DecidableEq

/-- The outcome of an enable/disable call. -/
inductive MgrResult where
  /-- Normal return. -/
  | ok
  /-- `EnablingExtensionError`. -/
  | errEnabling
  /-- `InvalidExtensionError`. -/
  | errInvalid
  /-- `InstallExtensionError` propagating uncaught (migration failure). -/
  | errInstall
  /-- `RegisteredExtension.DoesNotExist` from the database fetch. -/
  | errDb
  /-- `AssertionError` from `assert extension_id not in
  self._extension_instances`. -/
  | errAssert
  /-- The recursion bound ran out (embeds Python's unbounded recursion on
  cyclic requirements, which never returns normally). -/
  | fuelOut
  deriving Repr, DecidableEq

/-- Modelled from the spec: `GenerationSynchronizer.mark_updated`
(djblets/cache/synchronizer.py is not under src/; the spec describes the
generation synchronizer as "a cache-backed counter used to detect staleness
of in-process state across worker processes").  Marking it updated stores a
fresh generation value, embedded as incrementing the counter; `sync_gen`
reads the counter. -/
def genSyncMarkUpdated (syncGen : Nat) : Nat := syncGen + 1

/-- `ExtensionManager._bump_sync_gen` (manager.py lines 1204–1225): a no-op
while `_block_sync_gen` is set; otherwise `mark_updated` then
`settings.AJAX_SERIAL = self._gen_sync.sync_gen`. -/
def bumpSyncGen (st : MgrState) : MgrState × List Event :=
  if st.blockSyncGen then (st, [])
  else
    let g := genSyncMarkUpdated st.syncGen
    ({ st with syncGen := g, ajaxSerial := g }, [.bumpedSyncGen])

/-- `ExtensionManager._store_load_error` (manager.py lines 821–826). -/
def storeLoadError (st : MgrState) (id : String) : MgrState :=
  let errs := if id ∈ st.loadErrors then st.loadErrors else st.loadErrors ++ [id]
  { st with loadErrors := errs }

/-- The app list used by `_add_to_installed_apps` /
`_remove_from_installed_apps`: `extension.apps or [extension.info.app_name]`. -/
def ExtensionClass.appList (cls : ExtensionClass) : List String :=
  if cls.apps.isEmpty then [cls.appName] else cls.apps

/-- The version-staleness check of `_init_extension` (manager.py lines
736–747): the database needs a sync when the extension has no recorded
installed version (registration not installed, or no stored version — both
falsy in the code) or the recorded version is older than the current one.
Reads only the registration and stored-version tables. -/
def initNeedsSync (st : MgrState) (id : String) (cls : ExtensionClass) :
    Bool :=
  let reg := (aget st.registrations id).getD
    { enabled := false, installed := false }
  let oldVersion := if reg.installed then aget st.extVersions id else none
  oldVersion.isNone || oldVersion.getD 0 < cls.version

/-- The state mutations of `_init_extension` performed before the media
install: clear any load error, store the instance, add installed apps and
context processors. -/
def initMutations (st : MgrState) (id : String) (cls : ExtensionClass) :
    MgrState :=
  { st with
    loadErrors := st.loadErrors.erase id
    instances := st.instances ++ [id]
    installedApps := st.installedApps.addList cls.appList
    contextProcessors := st.contextProcessors.addList cls.contextProcessors }

/-- `ExtensionManager._init_extension` (manager.py lines 689–768), in
program order: assert not already enabled; construct the instance (an
exception is stored as a load error and re-raised as
`EnablingExtensionError`); clear any load error; store the instance;
register static bundles; add installed apps and context processors; clear
template-tag caches; install media (`InstallExtensionError` re-raised as
`EnablingExtensionError`); migrate the database when the stored version is
absent or older (a migration failure stores a load error and lets
`InstallExtensionError` propagate); record the version; mark the
registration installed and save it.  The registration and stored-version
tables are untouched before the version check, so that check reads them
off the entry state. -/
def initExtension (st : MgrState) (id : String) (cls : ExtensionClass) :
    MgrState × List Event × MgrResult :=
  if id ∈ st.instances then
    (st, [], .errAssert)
  else if cls.ctorRaises then
    (storeLoadError st id, [], .errEnabling)
  else
    let st1 := initMutations st id cls
    let evs := [Event.initialized id, Event.registeredStaticBundles id,
                Event.clearedTemplateTagCaches]
    if cls.mediaInstallRaises then
      (st1, evs, .errEnabling)
    else if initNeedsSync st id cls && cls.migrateRaises then
      (storeLoadError st1 id, evs ++ [.syncedDatabase id], .errInstall)
    else
      let reg := (aget st.registrations id).getD
        { enabled := false, installed := false }
      let vers :=
        if initNeedsSync st id cls then aset st.extVersions id cls.version
        else st.extVersions
      let evs :=
        if initNeedsSync st id cls then evs ++ [Event.syncedDatabase id]
        else evs
      let regs := aset st.registrations id { reg with installed := true }
      ({ st1 with extVersions := vers, registrations := regs },
       evs ++ [.savedRegistration id], .ok)

/-- The combined recursion of `enable_extension` (manager.py lines 402–437)
and its requirements loop (lines 425–426), structurally recursive on an
explicit depth bound (`fuelOut` embeds Python recursion that never returns
normally, as on cyclic requirements).  `.inl id` runs
`enable_extension(id)`: return if already enabled; `EnablingExtensionError`
for a load error without a class, `InvalidExtensionError` for an unknown
id; else enable every requirement, initialize the extension, mark its
registration enabled and save it, clear template caches, bump the sync
generation, and recalculate middleware.  `.inr ids` runs the
`for requirement_id in ext_class.requirements:
self.enable_extension(requirement_id)` loop, which an exception aborts. -/
def enableGo : Nat → MgrState → Sum String (List String) →
    MgrState × List Event × MgrResult
  | 0, st, _ => (st, [], .fuelOut)
  | fuel + 1, st, .inl id =>
    if id ∈ st.instances then (st, [], .ok)
    else
      match aget st.classes id with
      | none =>
        if id ∈ st.loadErrors then (st, [], .errEnabling)
        else (st, [], .errInvalid)
      | some cls =>
        match enableGo fuel st (.inr cls.requirements) with
        | (st1, evs1, .ok) =>
          match initExtension st1 id cls with
          | (st2, evs2, .ok) =>
            let reg := (aget st2.registrations id).getD
              { enabled := false, installed := false }
            let regs := aset st2.registrations id { reg with enabled := true }
            let st3 := { st2 with registrations := regs }
            ((bumpSyncGen st3).1,
             evs1 ++ evs2 ++
               [Event.savedRegistration id, Event.clearedTemplateCaches] ++
               (bumpSyncGen st3).2 ++ [Event.recalculatedMiddleware],
             .ok)
          | (st2, evs2, r) => (st2, evs1 ++ evs2, r)
        | (st1, evs1, r) => (st1, evs1, r)
  | _ + 1, st, .inr [] => (st, [], .ok)
  | fuel + 1, st, .inr (id :: rest) =>
    match enableGo fuel st (.inl id) with
    | (st1, evs1, .ok) =>
      match enableGo fuel st1 (.inr rest) with
      | (st2, evs2, r) => (st2, evs1 ++ evs2, r)
    | (st1, evs1, r) => (st1, evs1, r)

/-- `ExtensionManager.enable_extension` (manager.py lines 402–437). -/
def enableExtension (fuel : Nat) (st : MgrState) (id : String) :
    MgrState × List Event × MgrResult :=
  enableGo fuel st (.inl id)

/-- The `enable_extension` requirements loop (manager.py lines 425–426). -/
def enableRequirements (fuel : Nat) (st : MgrState) (ids : List String) :
    MgrState × List Event × MgrResult :=
  enableGo fuel st (.inr ids)

/-- `ExtensionManager.get_dependent_extensions` (manager.py lines 384–400):
every other installed extension class whose requirements include the given
one (requirement entries are the installed classes of the required ids, so
comparing them compares the ids). -/
def getDependentExtensions (st : MgrState) (depId : String) : List String :=
  (st.classes.filter
    (fun p => decide (p.1 ≠ depId ∧ depId ∈ p.2.requirements))).map Prod.fst

/-- `ExtensionManager._uninstall_extension` (manager.py lines 976–993):
clear the recorded installed version, mark the registration not installed
and save it (the media-directory `rmtree`s have no embedded state). -/
def uninstallExtension (st : MgrState) (id : String) :
    MgrState × List Event :=
  let st := { st with extVersions := adel st.extVersions id }
  let reg := (aget st.registrations id).getD
    { enabled := false, installed := false }
  let regs := aset st.registrations id { reg with installed := false }
  let st := { st with registrations := regs }
  (st, [.uninstalled id, .savedRegistration id])

/-- `ExtensionManager._uninit_extension` (manager.py lines 791–819):
shut the extension down, remove context processors and installed apps,
clear template-tag caches, send the signal, and delete the instance. -/
def uninitExtension (st : MgrState) (id : String) (cls : ExtensionClass) :
    MgrState × List Event :=
  let cps := st.contextProcessors.removeList cls.contextProcessors
  let st := { st with contextProcessors := cps }
  let st := { st with installedApps := st.installedApps.removeList cls.appList }
  let st := { st with instances := st.instances.erase id }
  (st, [.shutdownSent id, .clearedTemplateTagCaches, .uninitialized id])

/-- The common tail of `disable_extension` (manager.py lines 479–484):
`registration.enabled = False; registration.save(...)`, clear template
caches, bump the sync generation, recalculate middleware. -/
def finishDisable (st : MgrState) (id : String) : MgrState × List Event :=
  let reg := (aget st.registrations id).getD
    { enabled := false, installed := false }
  let regs := aset st.registrations id { reg with enabled := false }
  let st := { st with registrations := regs }
  let (st2, bumpEvs) := bumpSyncGen st
  (st2, [Event.savedRegistration id, Event.clearedTemplateCaches] ++
        bumpEvs ++ [Event.recalculatedMiddleware])

/-- The combined recursion of `disable_extension` (manager.py lines
439–484) and its dependents loop (lines 459–460), structurally recursive on
an explicit depth bound.  `.inl id` runs `disable_extension(id)`: with a
recorded load error, clear it and disable the registration (fetched from
the class, else from the database — `DoesNotExist` propagates when absent);
otherwise return if not enabled, raise `InvalidExtensionError` for an
unknown id, and else disable every dependent extension, uninstall,
uninitialize, unregister static bundles, and disable the registration.
`.inr ids` runs the `for dependent_id in
self.get_dependent_extensions(extension_id):
self.disable_extension(dependent_id)` loop, which an exception aborts. -/
def disableGo : Nat → MgrState → Sum String (List String) →
    MgrState × List Event × MgrResult
  | 0, st, _ => (st, [], .fuelOut)
  | fuel + 1, st, .inl id =>
    if id ∈ st.loadErrors then
      let st1 := { st with loadErrors := st.loadErrors.erase id }
      match aget st1.classes id with
      | some _ =>
        ((finishDisable st1 id).1, (finishDisable st1 id).2, .ok)
      | none =>
        match aget st1.registrations id with
        | some _ =>
          ((finishDisable st1 id).1, (finishDisable st1 id).2, .ok)
        | none => (st1, [], .errDb)
    else if id ∈ st.instances then
      match aget st.classes id with
      | none => (st, [], .errInvalid)
      | some cls =>
        match disableGo fuel st (.inr (getDependentExtensions st id)) with
        | (st1, evs1, .ok) =>
          let st2 := (uninstallExtension st1 id).1
          let st3 := (uninitExtension st2 id cls).1
          ((finishDisable st3 id).1,
           evs1 ++ (uninstallExtension st1 id).2 ++
             (uninitExtension st2 id cls).2 ++
             [Event.unregisteredStaticBundles id] ++
             (finishDisable st3 id).2,
           .ok)
        | (st1, evs1, r) => (st1, evs1, r)
    else (st, [], .ok)
  | _ + 1, st, .inr [] => (st, [], .ok)
  | fuel + 1, st, .inr (id :: rest) =>
    match disableGo fuel st (.inl id) with
    | (st1, evs1, .ok) =>
      match disableGo fuel st1 (.inr rest) with
      | (st2, evs2, r) => (st2, evs1 ++ evs2, r)
    | (st1, evs1, r) => (st1, evs1, r)

/-- `ExtensionManager.disable_extension` (manager.py lines 439–484). -/
def disableExtension (fuel : Nat) (st : MgrState) (id : String) :
    MgrState × List Event × MgrResult :=
  disableGo fuel st (.inl id)

/-- The `disable_extension` dependents loop (manager.py lines 459–460). -/
def disableDependents (fuel : Nat) (st : MgrState) (ids : List String) :
    MgrState × List Event × MgrResult :=
  disableGo fuel st (.inr ids)

/-- The requirements of an extension id, read off the class table. -/
def reqOf (classes : List (String × ExtensionClass)) (id : String) :
    List String :=
  ((aget classes id).map ExtensionClass.requirements).getD []

/-- How an event changes the set of enabled extensions. -/
def applyCascadeEvent (S : List String) : Event → List String
  | .initialized id => S ++ [id]
  | .uninitialized id => S.erase id
  | _ => S

/-- Replay the instance-set changes of an event list. -/
def replayInstances (S : List String) (evs : List Event) : List String :=
  evs.foldl applyCascadeEvent S

/-- Dependency-ordering of a cascade trace, starting from the enabled set
`S`: every extension is initialized only when all of its requirements are
already enabled, and uninstalled/uninitialized only when no other enabled
extension still requires it. -/
def cascadeOK (req : String → List String) :
    List String → List Event → Bool
  | _, [] => true
  | S, ev :: rest =>
    (match ev with
     | .initialized id => (req id).all (fun r => S.contains r)
     | .uninitialized id =>
       S.all (fun d => d == id || !(req d).contains id)
     | .uninstalled id =>
       S.all (fun d => d == id || !(req d).contains id)
     | _ => true) && cascadeOK req (applyCascadeEvent S ev) rest

/-- Well-formedness of a manager state, as the running code maintains it:
no duplicate instance or class keys, every enabled extension has a loaded
class, and an enabled extension has no recorded load error. -/
def MgrWf (st : MgrState) : Prop :=
  st.instances.Nodup ∧
  (st.classes.map Prod.fst).Nodup ∧
  (∀ i ∈ st.instances, i ∈ st.classes.map Prod.fst) ∧
  (∀ i ∈ st.instances, i ∉ st.loadErrors)

instance (st : MgrState) : Decidable (MgrWf st) := by
  unfold MgrWf; infer_instance

/-- The registration row for `id` with its `enabled` field set (the row is
created default-false when absent, as Python would have created it during
loading). -/
def regWithEnabled (st : MgrState) (id : String) (b : Bool) : Registration :=
  { (aget st.registrations id).getD { enabled := false, installed := false }
      with enabled := b }

/-- The registration row for `id` with its `installed` field set. -/
def regWithInstalled (st : MgrState) (id : String) (b : Bool) :
    Registration :=
  { (aget st.registrations id).getD { enabled := false, installed := false }
      with installed := b }

/-- A manager state with the registration row for `id` replaced, its
`enabled` field set (the record written by `registration.enabled = ...;
registration.save()`). -/
def setRegEnabled (st : MgrState) (id : String) (b : Bool) : MgrState :=
  { st with registrations := aset st.registrations id (regWithEnabled st id b) }

/-- What one enabling pass guarantees about the state transition: the class
table and the sync-blocking flag are untouched, the generation counter never
decreases (and is frozen, together with `AJAX_SERIAL`, while
`_block_sync_gen` is set), the instance set evolves exactly as the emitted
events say, already-enabled extensions stay enabled, and the trace is
dependency-ordered. -/
def EnableSpec (st st' : MgrState) (evs : List Event) : Prop :=
  st'.classes = st.classes ∧
  st'.blockSyncGen = st.blockSyncGen ∧
  st.syncGen ≤ st'.syncGen ∧
  (st.blockSyncGen = true →
    st'.syncGen = st.syncGen ∧ st'.ajaxSerial = st.ajaxSerial) ∧
  st'.instances = replayInstances st.instances evs ∧
  (∀ x ∈ st.instances, x ∈ st'.instances) ∧
  cascadeOK (reqOf st.classes) st.instances evs = true

/-- What one disabling pass guarantees: as `EnableSpec` but the instance set
only shrinks, load errors only get cleared, and duplicate-freeness of the
instance list is preserved (the dependency-ordering of the trace needs
well-formedness and is stated separately). -/
def DisableSpec (st st' : MgrState) (evs : List Event) : Prop :=
  st'.classes = st.classes ∧
  st'.blockSyncGen = st.blockSyncGen ∧
  st.syncGen ≤ st'.syncGen ∧
  (st.blockSyncGen = true →
    st'.syncGen = st.syncGen ∧ st'.ajaxSerial = st.ajaxSerial) ∧
  st'.instances = replayInstances st.instances evs ∧
  (∀ x ∈ st'.instances, x ∈ st.instances) ∧
  (∀ x ∈ st'.loadErrors, x ∈ st.loadErrors) ∧
  (st.instances.Nodup → st'.instances.Nodup)

/-- A demo extension class used to evaluate the manager model on concrete
inputs. -/
def demoClass (reqs : List String) : ExtensionClass :=
  { requirements := reqs, apps := [], appName := "demo.app",
    contextProcessors := [], version := 1, ctorRaises := false,
    mediaInstallRaises := false, migrateRaises := false }

/-- A demo extension class whose plugin code fails while enabling. -/
def demoFailingClass (ctor media : Bool) : ExtensionClass :=
  { requirements := [], apps := [], appName := "demo.app",
    contextProcessors := [], version := 1, ctorRaises := ctor,
    mediaInstallRaises := media, migrateRaises := false }

/-- A demo manager: extension `demo.A` requires `demo.B`; nothing enabled. -/
def demoMgrState : MgrState :=
  { classes := [("demo.A", demoClass ["demo.B"]), ("demo.B", demoClass [])],
    instances := [], loadErrors := [],
    registrations := [("demo.A", { enabled := false, installed := false }),
                      ("demo.B", { enabled := false, installed := false })],
    extVersions := [],
    installedApps := SettingListWrapper.init ["django.contrib.admin"],
    contextProcessors := SettingListWrapper.init [],
    syncGen := 0, ajaxSerial := 0, blockSyncGen := false }

/-- The demo manager after enabling `demo.A` (so `demo.B` and `demo.A` are
both enabled). -/
def demoMgrStateEnabled : MgrState :=
  (enableExtension 5 demoMgrState "demo.A").1

/-- The demo manager while a load is in progress (`_block_sync_gen` set). -/
def demoMgrStateBlocked : MgrState :=
  { demoMgrState with blockSyncGen := true }

/-- A demo manager whose only extension's constructor raises. -/
def demoMgrStateCtorFail : MgrState :=
  { demoMgrState with classes := [("demo.A", demoFailingClass true false)] }

/-- A demo manager whose only extension's media installation raises
`InstallExtensionError`. -/
def demoMgrStateMediaFail : MgrState :=
  { demoMgrState with classes := [("demo.A", demoFailingClass false true)] }

/-- A demo extension class that requires `demo.B` and whose database
migration fails while enabling. -/
def demoMigrateFailClass : ExtensionClass :=
  { requirements := ["demo.B"], apps := [], appName := "demo.app",
    contextProcessors := [], version := 1, ctorRaises := false,
    mediaInstallRaises := false, migrateRaises := true }

/-- A demo manager whose extension `demo.A` (requiring `demo.B`) fails its
database migration while enabling. -/
def demoMgrStateMigrateFail : MgrState :=
  { demoMgrState with
    classes := [("demo.A", demoMigrateFailClass), ("demo.B", demoClass [])] }

/-- The demo manager after the migration of `demo.A` failed during
`enable_extension`: `demo.A` stays in the instance table and carries a
recorded load error. -/
def demoMgrStateBroken : MgrState :=
  (enableExtension 5 demoMgrStateMigrateFail "demo.A").1

/-- A demo extension class that requires `demo.B` and whose plugin code
fails while enabling. -/
def demoFailingDepClass (ctor media : Bool) : ExtensionClass :=
  { requirements := ["demo.B"], apps := [], appName := "demo.app",
    contextProcessors := [], version := 1, ctorRaises := ctor,
    mediaInstallRaises := media, migrateRaises := false }

/-- A demo manager whose extension `demo.A` requires `demo.B` and has a
failing constructor. -/
def demoMgrStateDepCtorFail : MgrState :=
  { demoMgrState with
    classes := [("demo.A", demoFailingDepClass true false),
                ("demo.B", demoClass [])] }

/-- A demo manager whose extension `demo.A` requires `demo.B` and fails
its media installation. -/
def demoMgrStateDepMediaFail : MgrState :=
  { demoMgrState with
    classes := [("demo.A", demoFailingDepClass false true),
                ("demo.B", demoClass [])] }

/-- The state of `demoMgrStateDepCtorFail` after the requirements of
`demo.A` were enabled. -/
def demoDepCtorSt1 : MgrState :=
  (enableRequirements 3 demoMgrStateDepCtorFail ["demo.B"]).1

/-- The events of enabling the requirements of `demo.A` in
`demoMgrStateDepCtorFail`. -/
def demoDepCtorEvs1 : List Event :=
  (enableRequirements 3 demoMgrStateDepCtorFail ["demo.B"]).2.1

/-- The state of `demoMgrStateDepMediaFail` after the requirements of
`demo.A` were enabled. -/
def demoDepMediaSt1 : MgrState :=
  (enableRequirements 3 demoMgrStateDepMediaFail ["demo.B"]).1

/-- The events of enabling the requirements of `demo.A` in
`demoMgrStateDepMediaFail`. -/
def demoDepMediaEvs1 : List Event :=
  (enableRequirements 3 demoMgrStateDepMediaFail ["demo.B"]).2.1

/-! ## Theorems -/

section AssocLemmas

variable {κ β : Type} [DecidableEq κ]

theorem aget_aset (l : List (κ × β)) (k x : κ) (v : β) :
    aget (aset l k v) x = if x = k then some v else aget l x := by
  induction l with
  | nil => by_cases h : x = k <;> simp [aget, aset, h]
  | cons hd tl ih =>
    obtain ⟨k1, v1⟩ := hd
    by_cases h1 : k = k1
    · subst h1
      by_cases h2 : x = k <;> simp [aget, aset, h2]
    · by_cases h2 : x = k1
      · subst h2
        have : ¬x = k := fun h => h1 (h ▸ rfl)
        simp [aget, aset, h1, this]
      · simp [aget, aset, h1, h2, ih]

theorem aget_eq_none_iff (l : List (κ × β)) (k : κ) :
    aget l k = none ↔ k ∉ l.map Prod.fst := by
  induction l with
  | nil => simp [aget]
  | cons hd tl ih =>
    obtain ⟨k1, v1⟩ := hd
    by_cases h : k = k1 <;> simp [aget, h, ih]

theorem aget_isSome_iff (l : List (κ × β)) (k : κ) :
    (aget l k).isSome ↔ k ∈ l.map Prod.fst := by
  induction l with
  | nil => simp [aget]
  | cons hd tl ih =>
    obtain ⟨k1, v1⟩ := hd
    by_cases h : k = k1 <;> simp [aget, h, ih]

theorem mem_of_aget_eq_some {l : List (κ × β)} {k : κ} {v : β}
    (h : aget l k = some v) : (k, v) ∈ l := by
  induction l with
  | nil => simp [aget] at h
  | cons hd tl ih =>
    obtain ⟨k1, v1⟩ := hd
    by_cases hk : k = k1
    · subst hk
      simp [aget] at h
      simp [h]
    · simp [aget, hk] at h
      simp [ih h]

theorem mem_aset {l : List (κ × β)} {k : κ} {v : β} {p : κ × β}
    (h : p ∈ aset l k v) : p = (k, v) ∨ p ∈ l := by
  induction l with
  | nil => simpa [aset] using h
  | cons hd tl ih =>
    obtain ⟨k1, v1⟩ := hd
    by_cases hk : k = k1
    · subst hk
      simp [aset] at h
      rcases h with h | h
      · exact Or.inl (by simp [h])
      · exact Or.inr (by simp [h])
    · simp [aset, hk] at h
      rcases h with h | h
      · exact Or.inr (by simp [h])
      · rcases ih h with h | h
        · exact Or.inl h
        · exact Or.inr (by simp [h])

theorem keys_aset_of_mem {l : List (κ × β)} {k : κ} (v : β)
    (h : k ∈ l.map Prod.fst) :
    (aset l k v).map Prod.fst = l.map Prod.fst := by
  induction l with
  | nil => simp at h
  | cons hd tl ih =>
    obtain ⟨k1, v1⟩ := hd
    rw [List.map_cons] at h
    by_cases hk : k = k1
    · subst hk
      simp [aset]
    · rcases List.mem_cons.mp h with h | h
      · exact absurd h hk
      · simp [aset, hk, ih h]

theorem keys_aset_of_not_mem {l : List (κ × β)} {k : κ} (v : β)
    (h : k ∉ l.map Prod.fst) :
    (aset l k v).map Prod.fst = l.map Prod.fst ++ [k] := by
  induction l with
  | nil => simp [aset]
  | cons hd tl ih =>
    obtain ⟨k1, v1⟩ := hd
    rw [List.map_cons] at h
    have h1 : ¬k = k1 := fun hh => h (hh ▸ List.mem_cons_self _ _)
    have h2 : k ∉ tl.map Prod.fst := fun hh => h (List.mem_cons_of_mem _ hh)
    simp [aset, h1, ih h2]

theorem aget_adel_ne (l : List (κ × β)) (k x : κ) (h : x ≠ k) :
    aget (adel l k) x = aget l x := by
  induction l with
  | nil => simp [adel]
  | cons hd tl ih =>
    obtain ⟨k1, v1⟩ := hd
    by_cases hk : k = k1
    · subst hk
      simp [adel, aget, h]
    · by_cases hx : x = k1 <;> simp [adel, aget, hk, hx, ih]

theorem keys_adel_of_nodup {l : List (κ × β)} (k : κ)
    (h : (l.map Prod.fst).Nodup) :
    (adel l k).map Prod.fst = (l.map Prod.fst).erase k := by
  induction l with
  | nil => simp [adel]
  | cons hd tl ih =>
    obtain ⟨k1, v1⟩ := hd
    simp at h
    by_cases hk : k = k1
    · subst hk
      simp [adel, List.erase_cons_head]
    · simp [adel, hk, List.erase_cons_tail, Ne.symm hk, ih h.2]

theorem aget_adel_self_of_nodup {l : List (κ × β)} (k : κ)
    (h : (l.map Prod.fst).Nodup) :
    aget (adel l k) k = none := by
  rw [aget_eq_none_iff, keys_adel_of_nodup k h]
  simp [List.Nodup.mem_erase_iff h]

theorem mem_adel {l : List (κ × β)} {k : κ} {p : κ × β}
    (h : p ∈ adel l k) : p ∈ l := by
  induction l with
  | nil => simpa [adel] using h
  | cons hd tl ih =>
    obtain ⟨k1, v1⟩ := hd
    by_cases hk : k = k1
    · subst hk
      simp [adel] at h
      simp [h]
    · simp [adel, hk] at h
      rcases h with h | h
      · simp [h]
      · simp [ih h]

theorem aset_aset (l : List (κ × β)) (k : κ) (v v' : β) :
    aset (aset l k v) k v' = aset l k v' := by
  induction l with
  | nil => simp [aset]
  | cons hd tl ih =>
    obtain ⟨k1, v1⟩ := hd
    by_cases hk : k = k1 <;> simp [aset, hk, ih]

theorem aget_aset_self (l : List (κ × β)) (k : κ) (v : β) :
    aget (aset l k v) k = some v := by
  rw [aget_aset]
  simp

theorem aset_eq_self {l : List (κ × β)} {k : κ} {v : β}
    (h : aget l k = some v) : aset l k v = l := by
  induction l with
  | nil => simp [aget] at h
  | cons hd tl ih =>
    obtain ⟨k1, v1⟩ := hd
    by_cases hk : k = k1
    · subst hk
      simp [aget] at h
      simp [aset, h]
    · simp [aget, hk] at h
      simp [aset, hk, ih h]

end AssocLemmas

namespace SettingListWrapper

variable {α : Type} [DecidableEq α]

theorem keys_aset_nodup {l : List (α × Nat)} {k : α} (v : Nat)
    (h : (l.map Prod.fst).Nodup) : ((aset l k v).map Prod.fst).Nodup := by
  by_cases hk : k ∈ l.map Prod.fst
  · rw [keys_aset_of_mem v hk]; exact h
  · rw [keys_aset_of_not_mem v hk]
    rw [List.nodup_append]
    exact ⟨h, List.nodup_singleton k, by
      intro x hx
      simp only [List.mem_singleton]
      exact fun e => hk (e ▸ hx)⟩

theorem add_eq_of_some {w : SettingListWrapper α} {item : α} {n : Nat}
    (hag : aget w.ref_counts item = some n) :
    w.add item =
      ({ w with ref_counts := aset w.ref_counts item (n + 1) }, true) := by
  simp [add, hag]

theorem add_eq_of_none {w : SettingListWrapper α} {item : α}
    (hag : aget w.ref_counts item = none) (hmem : item ∉ w.setting) :
    w.add item =
      ({ setting := w.setting ++ [item]
         ref_counts := aset w.ref_counts item 1 }, true) := by
  simp [add, hag, hmem]

theorem remove_eq_of_none {w : SettingListWrapper α} {item : α}
    (hag : aget w.ref_counts item = none) :
    w.remove item = (w, false, false) := by
  simp [remove, hag]

theorem remove_eq_of_one {w : SettingListWrapper α} {item : α}
    (hag : aget w.ref_counts item = some 1) (hmem : item ∈ w.setting) :
    w.remove item =
      ({ setting := w.setting.erase item
         ref_counts := adel w.ref_counts item }, true, true) := by
  simp [remove, hag, hmem]

theorem remove_eq_of_ge {w : SettingListWrapper α} {item : α} {n : Nat}
    (hag : aget w.ref_counts item = some n) (hn : n ≠ 1)
    (hmem : item ∈ w.setting) :
    w.remove item =
      ({ w with ref_counts := aset w.ref_counts item (n - 1) },
       false, true) := by
  simp [remove, hag, hmem, hn]

theorem remove_eq_of_not_mem {w : SettingListWrapper α} {item : α} {n : Nat}
    (hag : aget w.ref_counts item = some n) (hmem : item ∉ w.setting) :
    w.remove item = (w, false, false) := by
  simp [remove, hag, hmem]

theorem inv_add {w : SettingListWrapper α} (h : Inv w) (item : α) :
    Inv (w.add item).1 := by
  obtain ⟨h1, h2, h3, h4, h5⟩ := h
  cases hag : aget w.ref_counts item with
  | some n =>
    have hkm : item ∈ w.ref_counts.map Prod.fst :=
      (aget_isSome_iff _ _).mp (by simp [hag])
    simp only [add, hag]
    refine ⟨?_, ?_, ?_, h4, ?_⟩
    · intro x hx
      rw [keys_aset_of_mem _ hkm]
      exact h1 x hx
    · intro x hx
      rw [keys_aset_of_mem _ hkm] at hx
      exact h2 x hx
    · intro p hp
      rcases mem_aset hp with rfl | hp
      · simp
      · exact h3 p hp
    · rw [keys_aset_of_mem _ hkm]
      exact h5
  | none =>
    have hkm : item ∉ w.ref_counts.map Prod.fst :=
      (aget_eq_none_iff _ _).mp hag
    have hmem : item ∉ w.setting := fun hx => hkm (h1 item hx)
    simp only [add, hag, if_neg hmem]
    refine ⟨?_, ?_, ?_, ?_, ?_⟩
    · intro x hx
      rw [keys_aset_of_not_mem _ hkm]
      rcases List.mem_append.mp hx with hx | hx
      · exact List.mem_append.mpr (Or.inl (h1 x hx))
      · exact List.mem_append.mpr (Or.inr hx)
    · intro x hx
      rw [keys_aset_of_not_mem _ hkm] at hx
      rcases List.mem_append.mp hx with hx | hx
      · exact List.mem_append.mpr (Or.inl (h2 x hx))
      · exact List.mem_append.mpr (Or.inr hx)
    · intro p hp
      rcases mem_aset hp with rfl | hp
      · simp
      · exact h3 p hp
    · rw [List.nodup_append]
      exact ⟨h4, List.nodup_singleton item, by
        intro x hx
        simp only [List.mem_singleton]
        exact fun e => hmem (e ▸ hx)⟩
    · rw [keys_aset_of_not_mem _ hkm, List.nodup_append]
      exact ⟨h5, List.nodup_singleton item, by
        intro x hx
        simp only [List.mem_singleton]
        exact fun e => hkm (e ▸ hx)⟩

theorem inv_remove {w : SettingListWrapper α} (h : Inv w) (item : α) :
    Inv (w.remove item).1 := by
  obtain ⟨h1, h2, h3, h4, h5⟩ := h
  cases hag : aget w.ref_counts item with
  | none => rw [remove_eq_of_none hag]; exact ⟨h1, h2, h3, h4, h5⟩
  | some n =>
    by_cases hmem : item ∈ w.setting
    · by_cases hn : n = 1
      · subst hn
        rw [remove_eq_of_one hag hmem]
        refine ⟨?_, ?_, ?_, h4.erase item, ?_⟩
        · intro x hx
          rw [List.Nodup.mem_erase_iff h4] at hx
          rw [keys_adel_of_nodup _ h5, List.Nodup.mem_erase_iff h5]
          exact ⟨hx.1, h1 x hx.2⟩
        · intro x hx
          rw [keys_adel_of_nodup _ h5, List.Nodup.mem_erase_iff h5] at hx
          rw [List.Nodup.mem_erase_iff h4]
          exact ⟨hx.1, h2 x hx.2⟩
        · intro p hp
          exact h3 p (mem_adel hp)
        · rw [keys_adel_of_nodup _ h5]
          exact h5.erase item
      · have hkm : item ∈ w.ref_counts.map Prod.fst :=
          (aget_isSome_iff _ _).mp (by simp [hag])
        rw [remove_eq_of_ge hag hn hmem]
        refine ⟨?_, ?_, ?_, h4, ?_⟩
        · intro x hx
          rw [keys_aset_of_mem _ hkm]
          exact h1 x hx
        · intro x hx
          rw [keys_aset_of_mem _ hkm] at hx
          exact h2 x hx
        · intro p hp
          rcases mem_aset hp with rfl | hp
          · have := h3 (item, n) (mem_of_aget_eq_some hag)
            simp only at this ⊢
            omega
          · exact h3 p hp
        · rw [keys_aset_of_mem _ hkm]
          exact h5
    · rw [remove_eq_of_not_mem hag hmem]
      exact ⟨h1, h2, h3, h4, h5⟩

theorem inv_addList {w : SettingListWrapper α} (h : Inv w) (items : List α) :
    Inv (w.addList items) := by
  induction items generalizing w with
  | nil => exact h
  | cons hd tl ih => exact ih (inv_add h hd)

theorem inv_removeList {w : SettingListWrapper α} (h : Inv w)
    (items : List α) : Inv (w.removeList items) := by
  induction items generalizing w with
  | nil => exact h
  | cons hd tl ih =>
    have hr := inv_remove h hd
    rw [removeList]
    rcases hrem : w.remove hd with ⟨w1, removed, okA⟩
    rw [hrem] at hr
    cases okA
    · exact hr
    · exact ih hr

theorem inv_applyOp {w : SettingListWrapper α} (h : Inv w) (op : Op α) :
    Inv (w.applyOp op) := by
  cases op with
  | add item => exact inv_add h item
  | addList items => exact inv_addList h items
  | remove item => exact inv_remove h item
  | removeList items => exact inv_removeList h items

theorem inv_applyOps {w : SettingListWrapper α} (h : Inv w)
    (ops : List (Op α)) : Inv (w.applyOps ops) := by
  induction ops generalizing w with
  | nil => exact h
  | cons op rest ih => exact ih (inv_applyOp h op)

theorem aget_init_fold (items : List α) (rc0 : List (α × Nat)) (x : α) :
    aget (items.foldl (fun rc item => aset rc item 1) rc0) x =
      if x ∈ items then some 1 else aget rc0 x := by
  induction items generalizing rc0 with
  | nil => simp
  | cons hd tl ih =>
    simp only [List.foldl_cons]
    rw [ih]
    by_cases hx : x ∈ tl
    · simp [hx]
    · by_cases hxh : x = hd <;> simp [hx, hxh, aget_aset]

theorem mem_init_fold {items : List α} {rc0 : List (α × Nat)}
    {p : α × Nat} (hp : p ∈ items.foldl (fun rc item => aset rc item 1) rc0) :
    p.2 = 1 ∨ p ∈ rc0 := by
  induction items generalizing rc0 with
  | nil => exact Or.inr hp
  | cons hd tl ih =>
    rcases ih hp with h | h
    · exact Or.inl h
    · rcases mem_aset h with rfl | h
      · exact Or.inl rfl
      · exact Or.inr h

theorem keys_init_fold_nodup (items : List α) (rc0 : List (α × Nat))
    (h : (rc0.map Prod.fst).Nodup) :
    (((items.foldl (fun rc item => aset rc item 1) rc0)).map Prod.fst).Nodup := by
  induction items generalizing rc0 with
  | nil => exact h
  | cons hd tl ih => exact ih _ (keys_aset_nodup _ h)

theorem inv_init (items : List α) (h : items.Nodup) : Inv (init items) := by
  refine ⟨?_, ?_, ?_, h, keys_init_fold_nodup items [] (by simp)⟩
  · intro x hx
    rw [← aget_isSome_iff]
    simp only [init] at hx ⊢
    rw [aget_init_fold]
    simp [hx]
  · intro x hx
    rw [← aget_isSome_iff] at hx
    simp only [init] at hx ⊢
    rw [aget_init_fold] at hx
    by_cases hmem : x ∈ items
    · exact hmem
    · simp [hmem, aget] at hx
  · intro p hp
    simp only [init] at hp
    rcases mem_init_fold hp with h | h
    · omega
    · simp at h

theorem refCount_init_of_mem {items : List α} {y : α} (hy : y ∈ items) :
    (init items).refCount y = 1 := by
  simp [refCount, init, aget_init_fold, hy]

theorem count_eq_one_iff_refCount_pos {w : SettingListWrapper α}
    (h : Inv w) (x : α) :
    (List.count x w.setting = 1 ↔ 1 ≤ w.refCount x) := by
  obtain ⟨h1, h2, h3, h4, h5⟩ := h
  constructor
  · intro hc
    have hx : x ∈ w.setting := by
      by_contra hxx
      rw [List.count_eq_zero.mpr hxx] at hc
      omega
    have := (aget_isSome_iff w.ref_counts x).mpr (h1 x hx)
    rcases hag : aget w.ref_counts x with _ | n
    · rw [hag] at this; simp at this
    · have := h3 (x, n) (mem_of_aget_eq_some hag)
      simp only [refCount, hag, Option.getD_some]
      simpa using this
  · intro hrc
    have hsm : (aget w.ref_counts x).isSome := by
      rcases hag : aget w.ref_counts x with _ | n
      · simp [refCount, hag] at hrc
      · simp
    have hx : x ∈ w.setting := h2 x ((aget_isSome_iff _ _).mp hsm)
    exact List.nodup_iff_count_eq_one.mp h4 x hx

end SettingListWrapper

/-- **C3**, counterexample: over an initial setting list that already
contains a duplicate (`['a', 'a']`), the constructor records ref count 1 for
the item while the wrapped list holds it twice, so — already after the empty
sequence of operations — "an item appears in the wrapped settings list
(exactly once, never duplicated) iff its ref count is at least 1" is false. -/
theorem C3_refcount_invariant_counterexample :
    ¬(List.count "a"
        (SettingListWrapper.init (α := String) ["a", "a"]).setting = 1 ↔
      1 ≤ (SettingListWrapper.init (α := String) ["a", "a"]).refCount "a") := by
  decide

/-- **C3** (amended: provided the initial setting list contains no
duplicates): after construction every initial item of the wrapped setting
has ref count 1, and after any sequence of add, add_list, remove, and
remove_list operations, an item appears in the wrapped settings list
(exactly once, never duplicated) if and only if its recorded ref count is at
least 1. -/
theorem C3_refcount_invariant {α : Type} [DecidableEq α]
    (items : List α) (ops : List (SettingListWrapper.Op α)) (x : α)
    (hnd : items.Nodup) :
    (∀ y ∈ items, (SettingListWrapper.init items).refCount y = 1) ∧
    (List.count x ((SettingListWrapper.init items).applyOps ops).setting = 1 ↔
      1 ≤ ((SettingListWrapper.init items).applyOps ops).refCount x) :=
  ⟨fun _ hy => SettingListWrapper.refCount_init_of_mem hy,
   SettingListWrapper.count_eq_one_iff_refCount_pos
     (SettingListWrapper.inv_applyOps
       (SettingListWrapper.inv_init items hnd) ops) x⟩

/-- Witness for C3 at a concrete input. -/
theorem C3_refcount_invariant_witness :
    (∀ y ∈ (["a", "b"] : List String),
      (SettingListWrapper.init ["a", "b"]).refCount y = 1) ∧
    (List.count "c"
        ((SettingListWrapper.init (α := String) ["a", "b"]).applyOps
          [.add "c", .remove "b"]).setting = 1 ↔
      1 ≤ ((SettingListWrapper.init (α := String) ["a", "b"]).applyOps
          [.add "c", .remove "b"]).refCount "c") :=
  C3_refcount_invariant ["a", "b"] [.add "c", .remove "b"] "c" (by decide)

/-- **C4**: for an item present with ref count `n ≥ 1`: `add` leaves the
list unchanged and raises the count to `n + 1`; `remove` passes its
assertions and returns `True`, deleting the item from both the list and the
ref-count table, exactly when `n = 1`, and otherwise returns `False`
leaving the list unchanged with count `n - 1`; and `add` immediately
followed by `remove` restores the wrapper exactly. -/
theorem C4_add_remove_roundtrip {α : Type} [DecidableEq α]
    (w : SettingListWrapper α) (item : α) (n : Nat)
    (hInv : SettingListWrapper.Inv w)
    (hn : aget w.ref_counts item = some n) (hpos : 1 ≤ n) :
    ((w.add item).1.setting = w.setting ∧
     (w.add item).1.refCount item = n + 1) ∧
    ((w.remove item).2.2 = true ∧
     ((w.remove item).2.1 = true ↔ n = 1)) ∧
    (n = 1 → item ∉ (w.remove item).1.setting ∧
      aget (w.remove item).1.ref_counts item = none) ∧
    (n ≠ 1 → (w.remove item).1.setting = w.setting ∧
      (w.remove item).1.refCount item = n - 1) ∧
    ((w.add item).1.remove item).1 = w := by
  have hsm : (aget w.ref_counts item).isSome := by simp [hn]
  have hmem : item ∈ w.setting :=
    hInv.2.1 item ((aget_isSome_iff _ _).mp hsm)
  have hnd : w.setting.Nodup := hInv.2.2.2.1
  have hknd : (w.ref_counts.map Prod.fst).Nodup := hInv.2.2.2.2
  refine ⟨?_, ?_, ?_, ?_, ?_⟩
  · rw [SettingListWrapper.add_eq_of_some hn]
    exact ⟨rfl, by simp [SettingListWrapper.refCount, aget_aset_self]⟩
  · by_cases h1 : n = 1
    · subst h1
      rw [SettingListWrapper.remove_eq_of_one hn hmem]
      simp
    · rw [SettingListWrapper.remove_eq_of_ge hn h1 hmem]
      simp [h1]
  · intro h1
    subst h1
    rw [SettingListWrapper.remove_eq_of_one hn hmem]
    refine ⟨?_, aget_adel_self_of_nodup item hknd⟩
    intro hc
    exact ((List.Nodup.mem_erase_iff hnd).mp hc).1 rfl
  · intro h1
    rw [SettingListWrapper.remove_eq_of_ge hn h1 hmem]
    exact ⟨rfl, by simp [SettingListWrapper.refCount, aget_aset_self]⟩
  · rw [SettingListWrapper.add_eq_of_some hn]
    have hn2 : aget (aset w.ref_counts item (n + 1)) item = some (n + 1) :=
      aget_aset_self _ _ _
    have hne : n + 1 ≠ 1 := by omega
    have hstep :
        (SettingListWrapper.mk w.setting
            (aset w.ref_counts item (n + 1))).remove item =
          ({ setting := w.setting
             ref_counts := aset (aset w.ref_counts item (n + 1)) item
               (n + 1 - 1) }, false, true) :=
      SettingListWrapper.remove_eq_of_ge hn2 hne hmem
    show ((SettingListWrapper.mk w.setting
        (aset w.ref_counts item (n + 1))).remove item).1 = w
    rw [hstep]
    show SettingListWrapper.mk w.setting
      (aset (aset w.ref_counts item (n + 1)) item (n + 1 - 1)) = w
    rw [Nat.add_sub_cancel, aset_aset, aset_eq_self hn]

/-- Witness for C4 at a concrete input. -/
theorem C4_add_remove_roundtrip_witness :
    (((SettingListWrapper.init (α := String) ["a"]).add "a").1.setting =
       (SettingListWrapper.init (α := String) ["a"]).setting ∧
     ((SettingListWrapper.init (α := String) ["a"]).add "a").1.refCount "a" =
       1 + 1) ∧
    (((SettingListWrapper.init (α := String) ["a"]).remove "a").2.2 = true ∧
     (((SettingListWrapper.init (α := String) ["a"]).remove "a").2.1 = true ↔
       1 = 1)) ∧
    (1 = 1 →
      "a" ∉ ((SettingListWrapper.init (α := String) ["a"]).remove "a").1.setting ∧
      aget ((SettingListWrapper.init (α := String) ["a"]).remove
        "a").1.ref_counts "a" = none) ∧
    (1 ≠ 1 →
      ((SettingListWrapper.init (α := String) ["a"]).remove "a").1.setting =
        (SettingListWrapper.init (α := String) ["a"]).setting ∧
      ((SettingListWrapper.init (α := String) ["a"]).remove "a").1.refCount
        "a" = 1 - 1) ∧
    (((SettingListWrapper.init (α := String) ["a"]).add "a").1.remove
      "a").1 = SettingListWrapper.init (α := String) ["a"] :=
  C4_add_remove_roundtrip (SettingListWrapper.init ["a"]) "a" 1
    (by decide) (by decide) (by decide)

/-- **C9**: `AnyOperator.matches` and `UnsetOperator.matches` are exact
complements; Any matches exactly the values equal to `0` or `False` or
truthy, and Unset matches exactly the values neither equal to `0` nor to
`False` that are falsy. -/
theorem C9_any_unset_complement (v c : PyVal) :
    anyOperatorMatches v c = !unsetOperatorMatches v c ∧
    (anyOperatorMatches v c = true ↔
      (v = .int 0 ∨ v = .bool false ∨ v.truthy = true)) ∧
    (unsetOperatorMatches v c = true ↔
      (¬(v = .int 0 ∨ v = .bool false) ∧ v.truthy = false)) := by
  cases v <;>
    simp [anyOperatorMatches, unsetOperatorMatches, PyVal.inZeroFalseTuple,
      PyVal.truthy] <;>
    tauto

/-- **C10**: `is_ratelimited` reports the user rate-limited exactly when the
attempt count — incremented first when `increment` is set — is at least the
configured limit (the attempt that reaches the limit is already reported);
with `LOGIN_LIMIT_RATE` unset the limit comes from
`Rate.parse('5/m') = Rate(count=5, seconds=60)`. -/
theorem C10_ratelimit_threshold_inclusive
    (setting : Option String) (rate : Rate) (cached : Option Nat)
    (increment : Bool)
    (hp : Rate.parse (setting.getD DEFAULT_LOGIN_LIMIT_RATE) = some rate) :
    Rate.parse DEFAULT_LOGIN_LIMIT_RATE = some { count := 5, seconds := 60 } ∧
    isRatelimited setting cached increment =
      some (decide (rate.count ≤
        (if increment then cached.getD 0 + 1 else cached.getD 0))) := by
  refine ⟨by decide, ?_⟩
  unfold isRatelimited getUsageCount
  rw [hp]
  cases increment <;> cases cached <;> simp

/-- Witness for C10 at a concrete input. -/
theorem C10_ratelimit_threshold_inclusive_witness :
    Rate.parse DEFAULT_LOGIN_LIMIT_RATE = some { count := 5, seconds := 60 } ∧
    isRatelimited none (some 4) true =
      some (decide ((5 : Nat) ≤
        (if true then (some 4).getD 0 + 1 else (some 4).getD 0))) :=
  C10_ratelimit_threshold_inclusive none { count := 5, seconds := 60 }
    (some 4) true (by decide)

/-- **C7**: `get` after `set` returns the stored value, whether or not the
key already had one; for an unset key, `get` returns the non-None default
argument when given, else the default registered for this configuration id
via `add_defaults`/`add_default` when one exists, and otherwise None —
also when a defaults entry exists for this configuration but has no
default for the key. -/
theorem C7_siteconfig_get_set {α : Type} (D : DefaultsTable α)
    (sc : SiteConfiguration α) (key : String) (value : α) (d : Option α)
    (dv : α) :
    ((sc.set key value).get D key d = some value) ∧
    (aget sc.settings key = none →
      (∀ dflt : α, sc.get D key (some dflt) = some dflt) ∧
      (sc.get (sc.addDefaults D [(key, dv)]) key none = some dv) ∧
      (aget ((aget D sc.id).getD []) key = none →
        sc.get D key none = none)) := by
  constructor
  · unfold SiteConfiguration.get SiteConfiguration.set
    simp only [aget_aset_self]
  · intro hunset
    refine ⟨?_, ?_, ?_⟩
    · intro dflt
      unfold SiteConfiguration.get
      simp only [hunset]
    · unfold SiteConfiguration.get SiteConfiguration.addDefaults
      simp only [hunset, List.foldl_cons, List.foldl_nil, aget_aset_self]
    · intro hnod
      unfold SiteConfiguration.get
      simp only [hunset]
      cases hD : aget D sc.id with
      | none => rfl
      | some d0 =>
        rw [hD] at hnod
        simp only [Option.getD_some] at hnod
        simp [hnod]


/-- Effect traces of `installMediaLoop` always use the computed lock-file
path. -/
theorem installMediaLoop_ok_lockfile (cfg : MediaCfg) (env : List LockAttempt) :
    ∀ (old disk : Option String) (i s : Nat) (t : MediaTrace),
      installMediaLoop cfg old disk i s env = .ok t →
      t.lockfile = mediaLockfile cfg := by
  induction env with
  | nil =>
    intro old disk i s t hok
    rw [installMediaLoop] at hok
    split at hok
    · cases hok
      rfl
    · cases hok
  | cons att rest ih =>
    intro old disk i s t hok
    rw [installMediaLoop] at hok
    split at hok
    · cases hok
      rfl
    · split at hok
      · split at hok
        · exact ih _ _ _ _ _ hok
        · cases hok
      · exact ih _ _ _ _ _ hok

/-- With every version-stamp write succeeding, a normal return of the
install loop leaves the stamp at the current version. -/
theorem installMediaLoop_ok_disk (cfg : MediaCfg) (env : List LockAttempt) :
    ∀ (old disk : Option String) (i s : Nat) (t : MediaTrace),
      (∀ a ∈ env, a.writeOk = true) →
      (old = some cfg.curVersion → disk = old) →
      installMediaLoop cfg old disk i s env = .ok t →
      t.diskVersion = some cfg.curVersion := by
  induction env with
  | nil =>
    intro old disk i s t hwr hinv hok
    rw [installMediaLoop] at hok
    split at hok
    · next hc =>
        cases hok
        rw [hinv hc, hc]
    · cases hok
  | cons att rest ih =>
    intro old disk i s t hwr hinv hok
    have hwr' : ∀ a ∈ rest, a.writeOk = true :=
      fun a ha => hwr a (List.mem_cons_of_mem _ ha)
    rw [installMediaLoop] at hok
    split at hok
    · next hc =>
        cases hok
        rw [hinv hc, hc]
    · next hc =>
        split at hok
        · split at hok
          · refine ih _ _ _ _ _ hwr' ?_ hok
            rcases att.versionOnRetry with _ | v
            · exact fun hcc => absurd hcc hc
            · exact fun _ => rfl
          · cases hok
        · have hw : att.writeOk = true := hwr att (List.mem_cons_self _ _)
          rw [hw] at hok
          exact ih _ _ _ _ _ hwr' (fun _ => by simp) hok


/-- **C6**, counterexample: a run with `should_install_static_media` true,
`force` unset and a single successful lock acquisition whose version-stamp
write raises `IOError` (caught and only logged) returns normally with the
recorded media version still absent, not equal to the current version
`"1.0"`. -/
theorem C6_media_counterexample :
    installExtensionMedia
      { tmpdir := "/tmp", extId := "ext.Ext", curVersion := "1.0",
        regInstalled := false, shouldInstall := true, force := false }
      none [{ lockErrno := none, versionOnRetry := none, writeOk := false }] =
      .ok (.completed,
        { lockfile := "/tmp/ext.Ext.lock", installs := 1, sleeps := 0,
          diskVersion := none }) ∧
    (none : Option String) ≠ some "1.0" :=
  ⟨rfl, by decide⟩

/-- **C6** (amended: the recorded version equals the current version on
normal return provided each version-stamp write succeeded; an `IOError`
while writing the stamp is caught and only logged, so the call can return
normally with a stale stamp): the lock file lives in the system temp
directory named after the extension id; a lock failure with errno `EAGAIN`,
`EACCES` or `EINTR` sleeps one second, re-reads the stamp and retries; any
other errno propagates the `IOError`; and when the recorded version already
equals the current version nothing is installed. -/
theorem C6_media_lock_retry (cfg : MediaCfg) :
    (∀ (vf : Option String) (env : List LockAttempt) (o : MediaOutcome)
      (t : MediaTrace), installExtensionMedia cfg vf env = .ok (o, t) →
      t.lockfile = cfg.tmpdir ++ "/" ++ (cfg.extId ++ ".lock")) ∧
    (∀ (old disk : Option String) (i s : Nat) (att : LockAttempt)
      (rest : List LockAttempt) (e : Nat),
      old ≠ some cfg.curVersion → att.lockErrno = some e →
      (e = EAGAIN ∨ e = EACCES ∨ e = EINTR) →
      installMediaLoop cfg old disk i s (att :: rest) =
        installMediaLoop cfg
          (match att.versionOnRetry with
           | some v => some v
           | none => old)
          att.versionOnRetry i (s + 1) rest) ∧
    (∀ (old disk : Option String) (i s : Nat) (att : LockAttempt)
      (rest : List LockAttempt) (e : Nat),
      old ≠ some cfg.curVersion → att.lockErrno = some e →
      ¬(e = EAGAIN ∨ e = EACCES ∨ e = EINTR) →
      installMediaLoop cfg old disk i s (att :: rest) =
        .error (.ioError e)) ∧
    (∀ (vf : Option String) (env : List LockAttempt) (o : MediaOutcome)
      (t : MediaTrace),
      (∀ a ∈ env, a.writeOk = true) →
      cfg.shouldInstall = true → cfg.force = false →
      installExtensionMedia cfg vf env = .ok (o, t) →
      t.diskVersion = some cfg.curVersion) ∧
    (cfg.shouldInstall = true → cfg.force = false → cfg.regInstalled = true →
      ∀ env : List LockAttempt,
        installExtensionMedia cfg (some cfg.curVersion) env =
          .ok (.upToDate,
            { lockfile := mediaLockfile cfg, installs := 0, sleeps := 0,
              diskVersion := some cfg.curVersion })) := by
  refine ⟨?_, ?_, ?_, ?_, ?_⟩
  · intro vf env o t hok
    rw [installExtensionMedia] at hok
    by_cases hsi : cfg.shouldInstall = false
    · rw [if_pos hsi] at hok
      cases hok
      rfl
    · rw [if_neg hsi] at hok
      by_cases hcond : cfg.force = false ∧
          (if cfg.force then none
           else if cfg.regInstalled then vf else none) = some cfg.curVersion
      · rw [if_pos hcond] at hok
        cases hok
        rfl
      · rw [if_neg hcond] at hok
        cases hm : installMediaLoop cfg
            (if cfg.force then none
             else if cfg.regInstalled then vf else none) vf 0 0 env with
        | error err =>
          rw [hm] at hok
          simp [Except.map] at hok
        | ok t1 =>
          rw [hm] at hok
          simp only [Except.map, Except.ok.injEq, Prod.mk.injEq] at hok
          rcases hok with ⟨-, rfl⟩
          exact installMediaLoop_ok_lockfile cfg env _ _ _ _ _ hm
  · intro old disk i s att rest e hold hl he
    conv_lhs => rw [installMediaLoop]
    simp [hold, hl, he]
  · intro old disk i s att rest e hold hl he
    conv_lhs => rw [installMediaLoop]
    simp [hold, hl, he]
  · intro vf env o t hwr hsi hf hok
    rw [installExtensionMedia] at hok
    rw [if_neg (by simp [hsi])] at hok
    by_cases hcond : cfg.force = false ∧
        (if cfg.force then none
         else if cfg.regInstalled then vf else none) = some cfg.curVersion
    · rw [if_pos hcond] at hok
      cases hok
      rcases hcond with ⟨-, hcond⟩
      rw [if_neg (by simp [hf])] at hcond
      by_cases hreg : cfg.regInstalled
      · rw [if_pos hreg] at hcond
        exact hcond
      · rw [if_neg hreg] at hcond
        cases hcond
    · rw [if_neg hcond] at hok
      cases hm : installMediaLoop cfg
          (if cfg.force then none
           else if cfg.regInstalled then vf else none) vf 0 0 env with
      | error err =>
        rw [hm] at hok
        simp [Except.map] at hok
      | ok t1 =>
        rw [hm] at hok
        simp only [Except.map, Except.ok.injEq, Prod.mk.injEq] at hok
        rcases hok with ⟨-, rfl⟩
        refine installMediaLoop_ok_disk cfg env _ _ _ _ _ hwr ?_ hm
        intro hcc
        rw [if_neg (by simp [hf])] at hcc ⊢
        by_cases hreg : cfg.regInstalled
        · rw [if_pos hreg] at hcc ⊢
        · rw [if_neg hreg] at hcc
          cases hcc
  · intro hsi hf hreg env
    rw [installExtensionMedia]
    rw [if_neg (by simp [hsi])]
    rw [if_pos ⟨hf, by rw [if_neg (by simp [hf]), if_pos hreg]⟩]

/-- Witness for C6 at concrete inputs. -/
theorem C6_media_lock_retry_witness :
    (MediaTrace.lockfile
      { lockfile := "/tmp/x.lock", installs := 0, sleeps := 0,
        diskVersion := some "1" } = "/tmp" ++ "/" ++ ("x" ++ ".lock")) ∧
    (installMediaLoop
        { tmpdir := "/tmp", extId := "x", curVersion := "1",
          regInstalled := true, shouldInstall := true, force := false }
        none none 0 0
        [{ lockErrno := some 11, versionOnRetry := some "1",
           writeOk := true }] =
      installMediaLoop
        { tmpdir := "/tmp", extId := "x", curVersion := "1",
          regInstalled := true, shouldInstall := true, force := false }
        (some "1") (some "1") 0 1 []) ∧
    (installMediaLoop
        { tmpdir := "/tmp", extId := "x", curVersion := "1",
          regInstalled := true, shouldInstall := true, force := false }
        none none 0 0
        [{ lockErrno := some 5, versionOnRetry := none, writeOk := true }] =
      .error (.ioError 5)) ∧
    (MediaTrace.diskVersion
      { lockfile := "/tmp/x.lock", installs := 1, sleeps := 0,
        diskVersion := some "1" } = some "1") ∧
    (installExtensionMedia
        { tmpdir := "/tmp", extId := "x", curVersion := "1",
          regInstalled := true, shouldInstall := true, force := false }
        (some "1") [] =
      .ok (.upToDate,
        { lockfile := mediaLockfile
            { tmpdir := "/tmp", extId := "x", curVersion := "1",
              regInstalled := true, shouldInstall := true, force := false },
          installs := 0, sleeps := 0, diskVersion := some "1" })) :=
  ⟨(C6_media_lock_retry
      { tmpdir := "/tmp", extId := "x", curVersion := "1",
        regInstalled := true, shouldInstall := true, force := false }).1
    (some "1") [] .upToDate
    { lockfile := "/tmp/x.lock", installs := 0, sleeps := 0,
      diskVersion := some "1" } rfl,
   (C6_media_lock_retry _).2.1 none none 0 0 _ [] 11 (by decide) rfl
     (by decide),
   (C6_media_lock_retry _).2.2.1 none none 0 0 _ [] 5 (by decide) rfl
     (by decide),
   (C6_media_lock_retry
      { tmpdir := "/tmp", extId := "x", curVersion := "1",
        regInstalled := true, shouldInstall := true, force := false }).2.2.2.1
     none [{ lockErrno := none, versionOnRetry := none, writeOk := true }]
     .completed
     { lockfile := "/tmp/x.lock", installs := 1, sleeps := 0,
       diskVersion := some "1" } (by decide) rfl rfl rfl,
   (C6_media_lock_retry _).2.2.2.2 rfl rfl rfl []⟩

/-- Witness for C7 at concrete inputs, including overwriting a key that
already has a value. -/
theorem C7_siteconfig_get_set_witness :
    ((SiteConfiguration.set ⟨1, [("k", 3)]⟩ "k" 7).get (α := Nat) [] "k"
        none = some 7) ∧
    ((∀ dflt : Nat, SiteConfiguration.get [] ⟨1, []⟩ "k" (some dflt) =
        some dflt) ∧
     (SiteConfiguration.get
        (SiteConfiguration.addDefaults (α := Nat) [] ⟨1, []⟩ [("k", 9)])
        ⟨1, []⟩ "k" none = some 9) ∧
     (SiteConfiguration.get (α := Nat) [] ⟨1, []⟩ "k" none = none)) :=
  ⟨(C7_siteconfig_get_set [] ⟨1, [("k", 3)]⟩ "k" 7 none 9).1,
   by
     have h :=
       (C7_siteconfig_get_set ([] : DefaultsTable Nat) ⟨1, []⟩ "k" 7 none
         9).2 rfl
     exact ⟨h.1, h.2.1, h.2.2 rfl⟩⟩





theorem replayInstances_append (S : List String) (l1 l2 : List Event) :
    replayInstances S (l1 ++ l2) =
      replayInstances (replayInstances S l1) l2 := by
  simp [replayInstances, List.foldl_append]

theorem cascadeOK_append (req : String → List String) (S : List String)
    (l1 l2 : List Event) :
    cascadeOK req S (l1 ++ l2) =
      (cascadeOK req S l1 && cascadeOK req (replayInstances S l1) l2) := by
  induction l1 generalizing S with
  | nil => simp [cascadeOK, replayInstances]
  | cons ev rest ih =>
    cases ev <;>
      simp [cascadeOK, applyCascadeEvent, replayInstances, ih,
        Bool.and_assoc]

theorem enableSpec_refl (st : MgrState) : EnableSpec st st [] :=
  ⟨rfl, rfl, le_refl _, fun _ => ⟨rfl, rfl⟩, rfl, fun _ h => h, rfl⟩

theorem enableSpec_trans {st st1 st2 : MgrState} {evs1 evs2 : List Event}
    (h1 : EnableSpec st st1 evs1) (h2 : EnableSpec st1 st2 evs2) :
    EnableSpec st st2 (evs1 ++ evs2) := by
  obtain ⟨c1, b1, g1, bl1, r1, m1, k1⟩ := h1
  obtain ⟨c2, b2, g2, bl2, r2, m2, k2⟩ := h2
  refine ⟨c2.trans c1, b2.trans b1, le_trans g1 g2, ?_, ?_, ?_, ?_⟩
  · intro hb
    have hb1 : st1.blockSyncGen = true := b1.trans hb
    obtain ⟨x1, y1⟩ := bl1 hb
    obtain ⟨x2, y2⟩ := bl2 hb1
    exact ⟨x2.trans x1, y2.trans y1⟩
  · rw [replayInstances_append, ← r1, ← r2]
  · intro x hx
    exact m2 x (m1 x hx)
  · rw [cascadeOK_append, ← r1]
    rw [c1] at k2
    simp [k1, k2]

theorem disableSpec_refl (st : MgrState) : DisableSpec st st [] :=
  ⟨rfl, rfl, le_refl _, fun _ => ⟨rfl, rfl⟩, rfl, fun _ h => h, fun _ h => h,
   fun h => h⟩

theorem disableSpec_trans {st st1 st2 : MgrState} {evs1 evs2 : List Event}
    (h1 : DisableSpec st st1 evs1) (h2 : DisableSpec st1 st2 evs2) :
    DisableSpec st st2 (evs1 ++ evs2) := by
  obtain ⟨c1, b1, g1, bl1, r1, m1, l1, n1⟩ := h1
  obtain ⟨c2, b2, g2, bl2, r2, m2, l2, n2⟩ := h2
  refine ⟨c2.trans c1, b2.trans b1, le_trans g1 g2, ?_, ?_, ?_, ?_, ?_⟩
  · intro hb
    have hb1 : st1.blockSyncGen = true := b1.trans hb
    obtain ⟨x1, y1⟩ := bl1 hb
    obtain ⟨x2, y2⟩ := bl2 hb1
    exact ⟨x2.trans x1, y2.trans y1⟩
  · rw [replayInstances_append, ← r1, ← r2]
  · intro x hx
    exact m1 x (m2 x hx)
  · intro x hx
    exact l1 x (l2 x hx)
  · intro hn
    exact n2 (n1 hn)

theorem initExtension_eq_assert {st : MgrState} {id : String}
    {cls : ExtensionClass} (hi : id ∈ st.instances) :
    initExtension st id cls = (st, [], .errAssert) := by
  simp [initExtension, hi]

theorem initExtension_eq_ctor {st : MgrState} {id : String}
    {cls : ExtensionClass} (hi : id ∉ st.instances)
    (hc : cls.ctorRaises = true) :
    initExtension st id cls = (storeLoadError st id, [], .errEnabling) := by
  simp [initExtension, hi, hc]

theorem initExtension_eq_media {st : MgrState} {id : String}
    {cls : ExtensionClass} (hi : id ∉ st.instances)
    (hc : cls.ctorRaises = false) (hm : cls.mediaInstallRaises = true) :
    initExtension st id cls =
      (initMutations st id cls,
       [.initialized id, .registeredStaticBundles id,
        .clearedTemplateTagCaches], .errEnabling) := by
  simp [initExtension, hi, hc, hm]

theorem initExtension_eq_migrate {st : MgrState} {id : String}
    {cls : ExtensionClass} (hi : id ∉ st.instances)
    (hc : cls.ctorRaises = false) (hm : cls.mediaInstallRaises = false)
    (hmig : (initNeedsSync st id cls && cls.migrateRaises) = true) :
    initExtension st id cls =
      (storeLoadError (initMutations st id cls) id,
       [.initialized id, .registeredStaticBundles id,
        .clearedTemplateTagCaches, .syncedDatabase id], .errInstall) := by
  simp [initExtension, hi, hc, hm, hmig]

theorem initExtension_eq_ok {st : MgrState} {id : String}
    {cls : ExtensionClass} (hi : id ∉ st.instances)
    (hc : cls.ctorRaises = false) (hm : cls.mediaInstallRaises = false)
    (hmig : (initNeedsSync st id cls && cls.migrateRaises) = false) :
    initExtension st id cls =
      ({ initMutations st id cls with
          extVersions :=
            if initNeedsSync st id cls then aset st.extVersions id cls.version
            else st.extVersions
          registrations :=
            aset st.registrations id
              { (aget st.registrations id).getD
                  { enabled := false, installed := false } with
                installed := true } },
       (if initNeedsSync st id cls then
          [Event.initialized id, Event.registeredStaticBundles id,
           Event.clearedTemplateTagCaches, Event.syncedDatabase id]
        else
          [Event.initialized id, Event.registeredStaticBundles id,
           Event.clearedTemplateTagCaches]) ++ [.savedRegistration id],
       .ok) := by
  by_cases hns : initNeedsSync st id cls
  · have hmr : cls.migrateRaises = false := by
      rw [hns] at hmig
      simpa using hmig
    simp [initExtension, hi, hc, hm, hmig, hns, hmr]
  · simp [initExtension, hi, hc, hm, hmig, hns]

theorem initExtension_spec (st : MgrState) (id : String)
    (cls : ExtensionClass) :
    (initExtension st id cls).1.classes = st.classes ∧
    (initExtension st id cls).1.blockSyncGen = st.blockSyncGen ∧
    (initExtension st id cls).1.syncGen = st.syncGen ∧
    (initExtension st id cls).1.ajaxSerial = st.ajaxSerial ∧
    (initExtension st id cls).1.instances =
      replayInstances st.instances (initExtension st id cls).2.1 ∧
    (∀ x ∈ st.instances, x ∈ (initExtension st id cls).1.instances) ∧
    (∀ req : String → List String, (∀ q ∈ req id, q ∈ st.instances) →
      cascadeOK req st.instances (initExtension st id cls).2.1 = true) ∧
    ((initExtension st id cls).2.2 = .ok →
      id ∈ (initExtension st id cls).1.instances) := by
  by_cases hi : id ∈ st.instances
  · rw [initExtension_eq_assert hi]
    exact ⟨rfl, rfl, rfl, rfl, rfl, fun x hx => hx, fun req hreq => rfl,
      fun h => by cases h⟩
  · by_cases hcp : cls.ctorRaises
    · rw [initExtension_eq_ctor hi hcp]
      exact ⟨rfl, rfl, rfl, rfl, rfl, fun x hx => hx, fun req hreq => rfl,
        fun h => by cases h⟩
    · have hc : cls.ctorRaises = false := by
        simp at hcp
        exact hcp
      by_cases hmp : cls.mediaInstallRaises
      · rw [initExtension_eq_media hi hc hmp]
        refine ⟨rfl, rfl, rfl, rfl, ?_, ?_, ?_, fun h => by cases h⟩
        · simp [initMutations, replayInstances, applyCascadeEvent]
        · intro x hx
          simp only [initMutations, List.mem_append]
          exact Or.inl hx
        · intro req hreq
          simp [cascadeOK, applyCascadeEvent, List.all_eq_true]
          intro q hq
          simpa using hreq q hq
      · have hm : cls.mediaInstallRaises = false := by
          simp at hmp
          exact hmp
        by_cases hmigp : (initNeedsSync st id cls && cls.migrateRaises) = true
        · rw [initExtension_eq_migrate hi hc hm hmigp]
          refine ⟨rfl, rfl, rfl, rfl, ?_, ?_, ?_, fun h => by cases h⟩
          · simp [storeLoadError, initMutations, replayInstances,
              applyCascadeEvent]
          · intro x hx
            simp only [storeLoadError, initMutations, List.mem_append]
            exact Or.inl hx
          · intro req hreq
            simp [cascadeOK, applyCascadeEvent, List.all_eq_true]
            intro q hq
            simpa using hreq q hq
        · have hmig : (initNeedsSync st id cls && cls.migrateRaises) =
              false := by
            simp only [Bool.not_eq_true] at hmigp
            exact hmigp
          rw [initExtension_eq_ok hi hc hm hmig]
          by_cases hns : initNeedsSync st id cls
          · refine ⟨rfl, rfl, rfl, rfl, ?_, ?_, ?_, ?_⟩
            · simp [hns, initMutations, replayInstances, applyCascadeEvent]
            · intro x hx
              simp only [initMutations, List.mem_append]
              exact Or.inl hx
            · intro req hreq
              simp [hns, cascadeOK, applyCascadeEvent, List.all_eq_true]
              intro q hq
              simpa using hreq q hq
            · intro _
              simp [initMutations]
          · refine ⟨rfl, rfl, rfl, rfl, ?_, ?_, ?_, ?_⟩
            · simp [hns, initMutations, replayInstances, applyCascadeEvent]
            · intro x hx
              simp only [initMutations, List.mem_append]
              exact Or.inl hx
            · intro req hreq
              simp [hns, cascadeOK, applyCascadeEvent, List.all_eq_true]
              intro q hq
              simpa using hreq q hq
            · intro _
              simp [initMutations]

theorem bumpSyncGen_spec (st : MgrState) :
    (bumpSyncGen st).1.classes = st.classes ∧
    (bumpSyncGen st).1.instances = st.instances ∧
    (bumpSyncGen st).1.loadErrors = st.loadErrors ∧
    (bumpSyncGen st).1.blockSyncGen = st.blockSyncGen ∧
    st.syncGen ≤ (bumpSyncGen st).1.syncGen ∧
    (st.blockSyncGen = true → (bumpSyncGen st).1 = st) ∧
    (st.blockSyncGen = false →
      st.syncGen < (bumpSyncGen st).1.syncGen ∧
      (bumpSyncGen st).1.ajaxSerial = (bumpSyncGen st).1.syncGen) ∧
    (∀ S : List String, replayInstances S (bumpSyncGen st).2 = S) ∧
    (∀ (req : String → List String) (S : List String),
      cascadeOK req S (bumpSyncGen st).2 = true) := by
  by_cases h : st.blockSyncGen <;>
    simp [bumpSyncGen, h, genSyncMarkUpdated, replayInstances,
      applyCascadeEvent, cascadeOK]

theorem bumpSyncGen_regs (st : MgrState) :
    (bumpSyncGen st).1.registrations = st.registrations := by
  by_cases h : st.blockSyncGen <;> simp [bumpSyncGen, h]

theorem finishDisable_eq_blocked {st : MgrState} {id : String}
    (h : st.blockSyncGen = true) :
    finishDisable st id =
      ({ st with registrations := aset st.registrations id (regWithEnabled st id false) },
       [.savedRegistration id, .clearedTemplateCaches,
        .recalculatedMiddleware]) := by
  simp [finishDisable, bumpSyncGen, h, regWithEnabled]

theorem finishDisable_eq_unblocked {st : MgrState} {id : String}
    (h : st.blockSyncGen = false) :
    finishDisable st id =
      ({ st with
          registrations := aset st.registrations id (regWithEnabled st id false)
          syncGen := st.syncGen + 1
          ajaxSerial := st.syncGen + 1 },
       [.savedRegistration id, .clearedTemplateCaches, .bumpedSyncGen,
        .recalculatedMiddleware]) := by
  simp [finishDisable, bumpSyncGen, h, genSyncMarkUpdated, regWithEnabled]

theorem finishDisable_spec (st : MgrState) (id : String) :
    DisableSpec st (finishDisable st id).1 (finishDisable st id).2 ∧
    (∀ (req : String → List String) (S : List String),
      cascadeOK req S (finishDisable st id).2 = true) ∧
    (st.blockSyncGen = false →
      st.syncGen < (finishDisable st id).1.syncGen ∧
      (finishDisable st id).1.ajaxSerial = (finishDisable st id).1.syncGen) ∧
    (finishDisable st id).1.instances = st.instances ∧
    (finishDisable st id).1.loadErrors = st.loadErrors := by
  by_cases h : st.blockSyncGen
  · rw [finishDisable_eq_blocked h]
    refine ⟨⟨rfl, rfl, le_refl _, fun _ => ⟨rfl, rfl⟩, ?_, fun x hx => hx,
      fun x hx => hx, fun hn => hn⟩, ?_, ?_, rfl, rfl⟩
    · simp [replayInstances, applyCascadeEvent]
    · intro req S
      simp [cascadeOK, applyCascadeEvent]
    · intro hb
      rw [h] at hb
      cases hb
  · have h0 : st.blockSyncGen = false := by
      simp at h
      exact h
    rw [finishDisable_eq_unblocked h0]
    refine ⟨⟨rfl, rfl, Nat.le_succ _, ?_, ?_, fun x hx => hx,
      fun x hx => hx, fun hn => hn⟩, ?_, ?_, rfl, rfl⟩
    · intro hb
      rw [h0] at hb
      cases hb
    · simp [replayInstances, applyCascadeEvent]
    · intro req S
      simp [cascadeOK, applyCascadeEvent]
    · intro _
      exact ⟨Nat.lt_succ_self _, rfl⟩

theorem uninstallExtension_spec (st : MgrState) (id : String) :
    DisableSpec st (uninstallExtension st id).1 (uninstallExtension st id).2 ∧
    (uninstallExtension st id).1.instances = st.instances ∧
    (uninstallExtension st id).1.loadErrors = st.loadErrors ∧
    (uninstallExtension st id).1.blockSyncGen = st.blockSyncGen ∧
    (uninstallExtension st id).1.syncGen = st.syncGen ∧
    (uninstallExtension st id).1.ajaxSerial = st.ajaxSerial ∧
    (∀ (req : String → List String) (S : List String),
      S.all (fun d => d == id || !(req d).contains id) = true →
      cascadeOK req S (uninstallExtension st id).2 = true) := by
  refine ⟨?_, rfl, rfl, rfl, rfl, rfl, ?_⟩
  · exact ⟨rfl, rfl, le_refl _, fun _ => ⟨rfl, rfl⟩, by
      simp [uninstallExtension, replayInstances, applyCascadeEvent],
      fun x hx => hx, fun x hx => hx, fun h => h⟩
  · intro req S hall
    simp [uninstallExtension, cascadeOK, applyCascadeEvent]
    simpa using hall

theorem uninitExtension_spec (st : MgrState) (id : String)
    (cls : ExtensionClass) :
    DisableSpec st (uninitExtension st id cls).1
      (uninitExtension st id cls).2 ∧
    (uninitExtension st id cls).1.instances = st.instances.erase id ∧
    (uninitExtension st id cls).1.loadErrors = st.loadErrors ∧
    (uninitExtension st id cls).1.blockSyncGen = st.blockSyncGen ∧
    (uninitExtension st id cls).1.syncGen = st.syncGen ∧
    (uninitExtension st id cls).1.ajaxSerial = st.ajaxSerial ∧
    (∀ (req : String → List String) (S : List String),
      S.all (fun d => d == id || !(req d).contains id) = true →
      cascadeOK req S (uninitExtension st id cls).2 = true) := by
  refine ⟨?_, rfl, rfl, rfl, rfl, rfl, ?_⟩
  · refine ⟨rfl, rfl, le_refl _, fun _ => ⟨rfl, rfl⟩, ?_, ?_, fun x hx => hx,
      ?_⟩
    · simp [uninitExtension, replayInstances, applyCascadeEvent]
    · intro x hx
      exact List.mem_of_mem_erase hx
    · intro hn
      exact hn.erase id
  · intro req S hall
    simp [uninitExtension, cascadeOK, applyCascadeEvent]
    simpa using hall

theorem reqOf_eq {classes : List (String × ExtensionClass)} {id : String}
    {cls : ExtensionClass} (h : aget classes id = some cls) :
    reqOf classes id = cls.requirements := by
  simp [reqOf, h]

theorem enableGo_spec (fuel : Nat) :
    ∀ (st : MgrState) (input : Sum String (List String)),
    EnableSpec st (enableGo fuel st input).1 (enableGo fuel st input).2.1 ∧
    ((enableGo fuel st input).2.2 = .ok →
      (∀ id, input = .inl id → id ∈ (enableGo fuel st input).1.instances) ∧
      (∀ ids, input = .inr ids → ∀ x ∈ ids,
        x ∈ (enableGo fuel st input).1.instances)) ∧
    (∀ id, input = .inl id → (enableGo fuel st input).2.2 = .ok →
      id ∉ st.instances → st.blockSyncGen = false →
      st.syncGen < (enableGo fuel st input).1.syncGen ∧
      (enableGo fuel st input).1.ajaxSerial =
        (enableGo fuel st input).1.syncGen) := by
  induction fuel with
  | zero =>
    intro st input
    refine ⟨enableSpec_refl st, ?_, ?_⟩
    · intro h
      cases h
    · intro id hin h
      cases h
  | succ fuel ih =>
    intro st input
    rcases input with id | ids
    · by_cases hi : id ∈ st.instances
      · have heq : enableGo (fuel + 1) st (.inl id) = (st, [], .ok) := by
          simp [enableGo, hi]
        rw [heq]
        refine ⟨enableSpec_refl st, ?_, ?_⟩
        · intro _
          constructor
          · intro id2 hinj
            cases hinj
            exact hi
          · intro ids2 hinj
            cases hinj
        · intro id2 hinj _ hni _
          cases hinj
          exact absurd hi hni
      · cases hcls : aget st.classes id with
        | none =>
          by_cases hle : id ∈ st.loadErrors
          · have heq : enableGo (fuel + 1) st (.inl id) =
                (st, [], .errEnabling) := by
              simp [enableGo, hi, hcls, hle]
            rw [heq]
            refine ⟨enableSpec_refl st, ?_, ?_⟩
            · intro h
              cases h
            · intro id2 hinj h
              cases h
          · have heq : enableGo (fuel + 1) st (.inl id) =
                (st, [], .errInvalid) := by
              simp [enableGo, hi, hcls, hle]
            rw [heq]
            refine ⟨enableSpec_refl st, ?_, ?_⟩
            · intro h
              cases h
            · intro id2 hinj h
              cases h
        | some cls =>
          rcases hreq : enableGo fuel st (.inr cls.requirements) with
            ⟨st1, evs1, r1⟩
          have ihr := ih st (.inr cls.requirements)
          rw [hreq] at ihr
          obtain ⟨E1, ihrOk, -⟩ := ihr
          by_cases hr1 : r1 = .ok
          · subst hr1
            rcases hinit : initExtension st1 id cls with ⟨st2, evs2, r2⟩
            have ispec := initExtension_spec st1 id cls
            rw [hinit] at ispec
            obtain ⟨ic, ib, ig, ia, irp, imono, icasc, iok⟩ := ispec
            have hreqmem : ∀ q ∈ cls.requirements, q ∈ st1.instances :=
              fun q hq => (ihrOk rfl).2 cls.requirements rfl q hq
            have E2 : EnableSpec st1 st2 evs2 := by
              refine ⟨ic, ib, le_of_eq ig.symm, ?_, irp, imono, ?_⟩
              · intro _
                exact ⟨ig, ia⟩
              · apply icasc
                intro q hq
                rw [reqOf_eq] at hq
                · exact hreqmem q hq
                · show aget st1.classes id = some cls
                  rw [E1.1]
                  exact hcls
            by_cases hr2 : r2 = .ok
            · subst hr2
              have heq : enableGo (fuel + 1) st (.inl id) =
                  ((bumpSyncGen (setRegEnabled st2 id true)).1,
                   evs1 ++ evs2 ++
                     [Event.savedRegistration id,
                      Event.clearedTemplateCaches] ++
                     (bumpSyncGen (setRegEnabled st2 id true)).2 ++
                     [Event.recalculatedMiddleware],
                   .ok) := by
                simp [enableGo, hi, hcls, hreq, hinit, setRegEnabled,
                  regWithEnabled]
              obtain ⟨b1, b2, b3, b4, b5, b6, b7, b8, b9⟩ :=
                bumpSyncGen_spec (setRegEnabled st2 id true)
              have E3 : EnableSpec st2 (setRegEnabled st2 id true)
                  [Event.savedRegistration id,
                   Event.clearedTemplateCaches] := by
                refine ⟨rfl, rfl, le_refl _, fun _ => ⟨rfl, rfl⟩, ?_,
                  fun x hx => hx, ?_⟩
                · simp [replayInstances, applyCascadeEvent, setRegEnabled]
                · simp [cascadeOK, applyCascadeEvent]
              have E4 : EnableSpec (setRegEnabled st2 id true)
                  (bumpSyncGen (setRegEnabled st2 id true)).1
                  ((bumpSyncGen (setRegEnabled st2 id true)).2 ++
                    [Event.recalculatedMiddleware]) := by
                refine ⟨b1, b4, b5, ?_, ?_, ?_, ?_⟩
                · intro hb
                  rw [b6 hb]
                  exact ⟨rfl, rfl⟩
                · rw [replayInstances_append, b8]
                  simp [replayInstances, applyCascadeEvent, b2]
                · intro x hx
                  rw [b2]
                  exact hx
                · rw [cascadeOK_append, b9, b8]
                  simp [cascadeOK, applyCascadeEvent]
              have E := enableSpec_trans (enableSpec_trans (enableSpec_trans E1 E2) E3) E4
              rw [heq]
              refine ⟨?_, ?_, ?_⟩
              · simpa [List.append_assoc] using E
              · intro _
                constructor
                · intro id2 hinj
                  cases hinj
                  show id ∈ (bumpSyncGen (setRegEnabled st2 id true)).1.instances
                  rw [b2]
                  exact iok rfl
                · intro ids2 hinj
                  cases hinj
              · intro id2 hinj _ hni hbf
                cases hinj
                have hb2 : st2.blockSyncGen = false := by
                  rw [ib, E1.2.1, hbf]
                have hb3 : (setRegEnabled st2 id true).blockSyncGen = false :=
                  hb2
                obtain ⟨hlt, haj⟩ := b7 hb3
                constructor
                · calc st.syncGen ≤ st1.syncGen := E1.2.2.1
                    _ = st2.syncGen := ig.symm
                    _ < _ := hlt
                · exact haj
            · have heq : enableGo (fuel + 1) st (.inl id) =
                  (st2, evs1 ++ evs2, r2) := by
                rcases r2 with _ | _ | _ | _ | _ | _ | _
                · exact absurd rfl hr2
                all_goals simp [enableGo, hi, hcls, hreq, hinit]
              rw [heq]
              refine ⟨enableSpec_trans E1 E2, ?_, ?_⟩
              · intro h
                exact absurd h hr2
              · intro id2 hinj h
                exact absurd h hr2
          · have heq : enableGo (fuel + 1) st (.inl id) =
                (st1, evs1, r1) := by
              rcases r1 with _ | _ | _ | _ | _ | _ | _
              · exact absurd rfl hr1
              all_goals simp [enableGo, hi, hcls, hreq]
            rw [heq]
            refine ⟨E1, ?_, ?_⟩
            · intro h
              exact absurd h hr1
            · intro id2 hinj h
              exact absurd h hr1
    · rcases ids with _ | ⟨id, rest⟩
      · have heq : enableGo (fuel + 1) st (.inr []) = (st, [], .ok) := by
          simp [enableGo]
        rw [heq]
        refine ⟨enableSpec_refl st, ?_, ?_⟩
        · intro _
          constructor
          · intro id2 hinj
            cases hinj
          · intro ids2 hinj
            cases hinj
            intro x hx
            cases hx
        · intro id2 hinj
          cases hinj
      · rcases hhd : enableGo fuel st (.inl id) with ⟨st1, evs1, r1⟩
        have ihh := ih st (.inl id)
        rw [hhd] at ihh
        obtain ⟨F1, ihhOk, -⟩ := ihh
        by_cases hr1 : r1 = .ok
        · subst hr1
          rcases hrest : enableGo fuel st1 (.inr rest) with ⟨st2, evs2, r⟩
          have ihrr := ih st1 (.inr rest)
          rw [hrest] at ihrr
          obtain ⟨F2, ihrrOk, -⟩ := ihrr
          have heq : enableGo (fuel + 1) st (.inr (id :: rest)) =
              (st2, evs1 ++ evs2, r) := by
            simp [enableGo, hhd, hrest]
          rw [heq]
          refine ⟨enableSpec_trans F1 F2, ?_, ?_⟩
          · intro h
            constructor
            · intro id2 hinj
              cases hinj
            · intro ids2 hinj
              cases hinj
              intro x hx
              rcases List.mem_cons.mp hx with rfl | hx
              · exact F2.2.2.2.2.2.1 x (ihhOk rfl |>.1 x rfl)
              · exact (ihrrOk h).2 rest rfl x hx
          · intro id2 hinj
            cases hinj
        · have heq : enableGo (fuel + 1) st (.inr (id :: rest)) =
              (st1, evs1, r1) := by
            rcases r1 with _ | _ | _ | _ | _ | _ | _
            · exact absurd rfl hr1
            all_goals simp [enableGo, hhd]
          rw [heq]
          refine ⟨F1, ?_, ?_⟩
          · intro h
            exact absurd h hr1
          · intro id2 hinj
            cases hinj

theorem enableGo_aux (fuel : Nat) :
    ∀ (st : MgrState) (input : Sum String (List String)),
    (∀ x, x ∉ (enableGo fuel st input).1.instances →
      aget (enableGo fuel st input).1.registrations x =
        aget st.registrations x) ∧
    (∀ id cls, aget st.classes id = some cls →
      (cls.ctorRaises = true ∨ cls.mediaInstallRaises = true) →
      id ∉ st.instances → (enableGo fuel st input).2.2 = .ok →
      id ∉ (enableGo fuel st input).1.instances) := by
  induction fuel with
  | zero =>
    intro st input
    exact ⟨fun x _ => rfl, fun id cls _ _ hid _ => hid⟩
  | succ fuel ih =>
    intro st input
    rcases input with id0 | ids
    · by_cases hi : id0 ∈ st.instances
      · have heq : enableGo (fuel + 1) st (.inl id0) = (st, [], .ok) := by
          simp [enableGo, hi]
        rw [heq]
        exact ⟨fun x _ => rfl, fun id cls _ _ hid _ => hid⟩
      · cases hcls0 : aget st.classes id0 with
        | none =>
          by_cases hle : id0 ∈ st.loadErrors
          · have heq : enableGo (fuel + 1) st (.inl id0) =
                (st, [], .errEnabling) := by
              simp [enableGo, hi, hcls0, hle]
            rw [heq]
            exact ⟨fun x _ => rfl, fun id cls _ _ hid _ => hid⟩
          · have heq : enableGo (fuel + 1) st (.inl id0) =
                (st, [], .errInvalid) := by
              simp [enableGo, hi, hcls0, hle]
            rw [heq]
            exact ⟨fun x _ => rfl, fun id cls _ _ hid _ => hid⟩
        | some cls0 =>
          rcases hreq : enableGo fuel st (.inr cls0.requirements) with
            ⟨st1, evs1, r1⟩
          have ih1 := ih st (.inr cls0.requirements)
          rw [hreq] at ih1
          obtain ⟨ihregs1, ihbad1⟩ := ih1
          by_cases hr1 : r1 = .ok
          · subst hr1
            by_cases hi1m : id0 ∈ st1.instances
            · have hinit : initExtension st1 id0 cls0 =
                  (st1, [], .errAssert) := initExtension_eq_assert hi1m
              have heq : enableGo (fuel + 1) st (.inl id0) =
                  (st1, evs1, .errAssert) := by
                simp [enableGo, hi, hcls0, hreq, hinit]
              rw [heq]
              refine ⟨fun x hx => ihregs1 x hx, ?_⟩
              intro id cls hcls hbad hid hok
              cases hok
            · by_cases hcp : cls0.ctorRaises
              · have hinit : initExtension st1 id0 cls0 =
                    (storeLoadError st1 id0, [], .errEnabling) :=
                  initExtension_eq_ctor hi1m hcp
                have heq : enableGo (fuel + 1) st (.inl id0) =
                    (storeLoadError st1 id0, evs1, .errEnabling) := by
                  simp [enableGo, hi, hcls0, hreq, hinit]
                rw [heq]
                refine ⟨fun x hx => ihregs1 x hx, ?_⟩
                intro id cls hcls hbad hid hok
                cases hok
              · have hcf : cls0.ctorRaises = false := by
                  simpa using hcp
                by_cases hmp : cls0.mediaInstallRaises
                · have hinit : initExtension st1 id0 cls0 =
                      (initMutations st1 id0 cls0,
                       [.initialized id0, .registeredStaticBundles id0,
                        .clearedTemplateTagCaches], .errEnabling) :=
                    initExtension_eq_media hi1m hcf hmp
                  have heq : enableGo (fuel + 1) st (.inl id0) =
                      (initMutations st1 id0 cls0,
                       evs1 ++
                         [Event.initialized id0,
                          Event.registeredStaticBundles id0,
                          Event.clearedTemplateTagCaches],
                       .errEnabling) := by
                    simp [enableGo, hi, hcls0, hreq, hinit]
                  rw [heq]
                  refine ⟨?_, ?_⟩
                  · intro x hx
                    have hx1 : x ∉ st1.instances := by
                      intro hmem
                      exact hx (List.mem_append_left _ hmem)
                    exact ihregs1 x hx1
                  · intro id cls hcls hbad hid hok
                    cases hok
                · have hmf : cls0.mediaInstallRaises = false := by
                    simpa using hmp
                  by_cases hgp : (initNeedsSync st1 id0 cls0 &&
                      cls0.migrateRaises) = true
                  · have hinit : initExtension st1 id0 cls0 =
                        (storeLoadError (initMutations st1 id0 cls0) id0,
                         [.initialized id0, .registeredStaticBundles id0,
                          .clearedTemplateTagCaches, .syncedDatabase id0],
                         .errInstall) :=
                      initExtension_eq_migrate hi1m hcf hmf hgp
                    have heq : enableGo (fuel + 1) st (.inl id0) =
                        (storeLoadError (initMutations st1 id0 cls0) id0,
                         evs1 ++
                           [Event.initialized id0,
                            Event.registeredStaticBundles id0,
                            Event.clearedTemplateTagCaches,
                            Event.syncedDatabase id0],
                         .errInstall) := by
                      simp [enableGo, hi, hcls0, hreq, hinit]
                    rw [heq]
                    refine ⟨?_, ?_⟩
                    · intro x hx
                      have hx1 : x ∉ st1.instances := by
                        intro hmem
                        exact hx (List.mem_append_left _ hmem)
                      exact ihregs1 x hx1
                    · intro id cls hcls hbad hid hok
                      cases hok
                  · have hgf : (initNeedsSync st1 id0 cls0 &&
                        cls0.migrateRaises) = false := by
                      simpa using hgp
                    rcases hinit2 : initExtension st1 id0 cls0 with
                      ⟨st2, evs2, r2⟩
                    have hinit := initExtension_eq_ok hi1m hcf hmf hgf
                    have hcomp := hinit2.symm.trans hinit
                    injection hcomp with hA hBC
                    injection hBC with hB hC
                    subst hC
                    have hre2 : st2.registrations =
                        aset st1.registrations id0
                          { (aget st1.registrations id0).getD
                              { enabled := false, installed := false } with
                            installed := true } := by
                      rw [hA]
                    have hin2 : st2.instances = st1.instances ++ [id0] := by
                      rw [hA]
                      rfl
                    have heq : enableGo (fuel + 1) st (.inl id0) =
                        ((bumpSyncGen (setRegEnabled st2 id0 true)).1,
                         evs1 ++ evs2 ++
                           [Event.savedRegistration id0,
                            Event.clearedTemplateCaches] ++
                           (bumpSyncGen (setRegEnabled st2 id0 true)).2 ++
                           [Event.recalculatedMiddleware],
                         .ok) := by
                      simp [enableGo, hi, hcls0, hreq, hinit2,
                        setRegEnabled, regWithEnabled]
                    rw [heq]
                    obtain ⟨b1, b2, b3, b4, b5, b6, b7, b8, b9⟩ :=
                      bumpSyncGen_spec (setRegEnabled st2 id0 true)
                    refine ⟨?_, ?_⟩
                    · intro x hx
                      rw [b2] at hx
                      have hx2 : x ∉ st1.instances ++ [id0] := by
                        rw [← hin2]
                        exact hx
                      have hxne : x ≠ id0 := by
                        intro hxe
                        exact hx2 (by simp [hxe])
                      have hx1 : x ∉ st1.instances := by
                        intro hmem
                        exact hx2 (List.mem_append_left _ hmem)
                      rw [bumpSyncGen_regs]
                      show aget
                          (aset st2.registrations id0
                            (regWithEnabled st2 id0 true)) x =
                        aget st.registrations x
                      rw [aget_aset, if_neg hxne, hre2, aget_aset,
                        if_neg hxne]
                      exact ihregs1 x hx1
                    · intro id cls hcls hbad hid hok
                      rw [b2]
                      show id ∉ st2.instances
                      rw [hin2]
                      have hid1 : id ∉ st1.instances :=
                        ihbad1 id cls hcls hbad hid rfl
                      have hne : id ≠ id0 := by
                        intro he
                        rw [he] at hcls
                        rw [hcls] at hcls0
                        have hcc := Option.some.inj hcls0
                        rcases hbad with hb | hb
                        · rw [hcc, hcf] at hb
                          cases hb
                        · rw [hcc, hmf] at hb
                          cases hb
                      simp [List.mem_append, hid1, hne]
          · have heq : enableGo (fuel + 1) st (.inl id0) =
                (st1, evs1, r1) := by
              rcases r1 with _ | _ | _ | _ | _ | _ | _
              · exact absurd rfl hr1
              all_goals simp [enableGo, hi, hcls0, hreq]
            rw [heq]
            refine ⟨fun x hx => ihregs1 x hx, ?_⟩
            intro id cls hcls hbad hid hok
            exact absurd hok hr1
    · rcases ids with _ | ⟨id0, rest⟩
      · have heq : enableGo (fuel + 1) st (.inr []) = (st, [], .ok) := by
          simp [enableGo]
        rw [heq]
        exact ⟨fun x _ => rfl, fun id cls _ _ hid _ => hid⟩
      · rcases hhd : enableGo fuel st (.inl id0) with ⟨st1, evs1, r1⟩
        have ih1 := ih st (.inl id0)
        rw [hhd] at ih1
        obtain ⟨ihregs1, ihbad1⟩ := ih1
        have espec1 := enableGo_spec fuel st (.inl id0)
        rw [hhd] at espec1
        have F1 := espec1.1
        by_cases hr1 : r1 = .ok
        · subst hr1
          rcases hrest : enableGo fuel st1 (.inr rest) with ⟨st2, evs2, r⟩
          have ih2 := ih st1 (.inr rest)
          rw [hrest] at ih2
          obtain ⟨ihregs2, ihbad2⟩ := ih2
          have espec2 := enableGo_spec fuel st1 (.inr rest)
          rw [hrest] at espec2
          have F2 := espec2.1
          have heq : enableGo (fuel + 1) st (.inr (id0 :: rest)) =
              (st2, evs1 ++ evs2, r) := by
            simp [enableGo, hhd, hrest]
          rw [heq]
          refine ⟨?_, ?_⟩
          · intro x hx
            have hx1 : x ∉ st1.instances := by
              intro hmem
              exact hx (F2.2.2.2.2.2.1 x hmem)
            exact (ihregs2 x hx).trans (ihregs1 x hx1)
          · intro id cls hcls hbad hid hok
            have hid1 : id ∉ st1.instances :=
              ihbad1 id cls hcls hbad hid rfl
            have hcls1 : aget st1.classes id = some cls := by
              rw [F1.1]
              exact hcls
            exact ihbad2 id cls hcls1 hbad hid1 hok
        · have heq : enableGo (fuel + 1) st (.inr (id0 :: rest)) =
              (st1, evs1, r1) := by
            rcases r1 with _ | _ | _ | _ | _ | _ | _
            · exact absurd rfl hr1
            all_goals simp [enableGo, hhd]
          rw [heq]
          refine ⟨fun x hx => ihregs1 x hx, ?_⟩
          intro id cls hcls hbad hid hok
          exact absurd hok hr1

theorem wf_of_disableSpec {st st' : MgrState} {evs : List Event}
    (hwf : MgrWf st) (hd : DisableSpec st st' evs) : MgrWf st' := by
  obtain ⟨hn, hcn, hsub, hov⟩ := hwf
  obtain ⟨c, -, -, -, -, m, l, n⟩ := hd
  refine ⟨n hn, ?_, ?_, ?_⟩
  · rw [c]
    exact hcn
  · intro i hii
    rw [c]
    exact hsub i (m i hii)
  · intro i hii hle
    exact hov i (m i hii) (l i hle)

theorem mem_getDependentExtensions {st : MgrState} {d id : String}
    {cd : ExtensionClass} (hget : aget st.classes d = some cd)
    (hne : d ≠ id) (hreq : id ∈ cd.requirements) :
    d ∈ getDependentExtensions st id := by
  unfold getDependentExtensions
  refine List.mem_map.mpr ⟨(d, cd), ?_, rfl⟩
  refine List.mem_filter.mpr ⟨mem_of_aget_eq_some hget, ?_⟩
  simp [hne, hreq]

theorem reqOf_mem {classes : List (String × ExtensionClass)} {d id : String}
    (h : id ∈ reqOf classes d) :
    ∃ cd, aget classes d = some cd ∧ id ∈ cd.requirements := by
  unfold reqOf at h
  cases hget : aget classes d with
  | none => rw [hget] at h; cases h
  | some cd =>
    rw [hget] at h
    exact ⟨cd, rfl, by simpa using h⟩

theorem dependents_clear {st st1 : MgrState} (id : String)
    (hdis : ∀ x ∈ getDependentExtensions st id, x ∉ st1.instances) :
    (st1.instances.all
      (fun d => d == id || !((reqOf st.classes d).contains id))) = true := by
  rw [List.all_eq_true]
  intro d hd
  by_cases hdi : d = id
  · simp [hdi]
  · suffices h : id ∉ reqOf st.classes d by
      simp [hdi, h]
    intro hmem
    obtain ⟨cd, hget, hreq⟩ := reqOf_mem hmem
    exact hdis d (mem_getDependentExtensions hget hdi hreq) hd

theorem disableGo_spec (fuel : Nat) :
    ∀ (st : MgrState) (input : Sum String (List String)),
    DisableSpec st (disableGo fuel st input).1 (disableGo fuel st input).2.1 ∧
    (MgrWf st →
      cascadeOK (reqOf st.classes) st.instances
        (disableGo fuel st input).2.1 = true ∧
      ((disableGo fuel st input).2.2 = .ok →
        (∀ id, input = .inl id →
          id ∉ (disableGo fuel st input).1.instances) ∧
        (∀ ids, input = .inr ids → ∀ x ∈ ids,
          x ∉ (disableGo fuel st input).1.instances))) ∧
    (∀ id, input = .inl id → (disableGo fuel st input).2.2 = .ok →
      (id ∈ st.instances ∨ id ∈ st.loadErrors) → st.blockSyncGen = false →
      st.syncGen < (disableGo fuel st input).1.syncGen ∧
      (disableGo fuel st input).1.ajaxSerial =
        (disableGo fuel st input).1.syncGen) := by
  induction fuel with
  | zero =>
    intro st input
    refine ⟨disableSpec_refl st, ?_, ?_⟩
    · intro _
      refine ⟨rfl, ?_⟩
      intro h
      cases h
    · intro id hinj h
      cases h
  | succ fuel ih =>
    intro st input
    rcases input with id | ids
    · by_cases hle : id ∈ st.loadErrors
      · have E0 : DisableSpec st
            { st with loadErrors := st.loadErrors.erase id } [] :=
          ⟨rfl, rfl, le_refl _, fun _ => ⟨rfl, rfl⟩, rfl, fun x hx => hx,
           fun x hx => List.mem_of_mem_erase hx, fun hn => hn⟩
        obtain ⟨F1, F2, F3, F4, F5⟩ :=
          finishDisable_spec { st with loadErrors := st.loadErrors.erase id }
            id
        have hcommon :
            ∀ heq : disableGo (fuel + 1) st (.inl id) =
              ((finishDisable
                { st with loadErrors := st.loadErrors.erase id } id).1,
               (finishDisable
                { st with loadErrors := st.loadErrors.erase id } id).2,
               .ok),
            DisableSpec st (disableGo (fuel + 1) st (.inl id)).1
              (disableGo (fuel + 1) st (.inl id)).2.1 ∧
            (MgrWf st →
              cascadeOK (reqOf st.classes) st.instances
                (disableGo (fuel + 1) st (.inl id)).2.1 = true ∧
              ((disableGo (fuel + 1) st (.inl id)).2.2 = .ok →
                (∀ id2, (Sum.inl id : Sum String (List String)) =
                  .inl id2 →
                  id2 ∉ (disableGo (fuel + 1) st (.inl id)).1.instances) ∧
                (∀ ids2, (Sum.inl id : Sum String (List String)) =
                  .inr ids2 → ∀ x ∈ ids2,
                  x ∉ (disableGo (fuel + 1) st (.inl id)).1.instances))) ∧
            (∀ id2, (Sum.inl id : Sum String (List String)) = .inl id2 →
              (disableGo (fuel + 1) st (.inl id)).2.2 = .ok →
              (id2 ∈ st.instances ∨ id2 ∈ st.loadErrors) →
              st.blockSyncGen = false →
              st.syncGen < (disableGo (fuel + 1) st (.inl id)).1.syncGen ∧
              (disableGo (fuel + 1) st (.inl id)).1.ajaxSerial =
                (disableGo (fuel + 1) st (.inl id)).1.syncGen) := by
          intro heq
          rw [heq]
          refine ⟨?_, ?_, ?_⟩
          · simpa using disableSpec_trans E0 F1
          · intro hwf
            refine ⟨F2 _ _, ?_⟩
            intro _
            constructor
            · intro id2 hinj
              cases hinj
              rw [F4]
              show id ∉ ({ st with
                loadErrors := st.loadErrors.erase id }).instances
              intro hmem
              exact hwf.2.2.2 id hmem hle
            · intro ids2 hinj
              cases hinj
          · intro id2 hinj _ hmem hbf
            cases hinj
            exact F3 hbf
        cases hcls : aget st.classes id with
        | some c =>
          exact hcommon (by simp [disableGo, hle, hcls])
        | none =>
          cases hreg : aget st.registrations id with
          | some r =>
            exact hcommon (by simp [disableGo, hle, hcls, hreg])
          | none =>
            have heq : disableGo (fuel + 1) st (.inl id) =
                ({ st with loadErrors := st.loadErrors.erase id }, [],
                 .errDb) := by
              simp [disableGo, hle, hcls, hreg]
            rw [heq]
            refine ⟨E0, ?_, ?_⟩
            · intro _
              refine ⟨rfl, ?_⟩
              intro h
              cases h
            · intro id2 hinj h
              cases h
      · by_cases hi : id ∈ st.instances
        · cases hcls : aget st.classes id with
          | none =>
            have heq : disableGo (fuel + 1) st (.inl id) =
                (st, [], .errInvalid) := by
              simp [disableGo, hle, hi, hcls]
            rw [heq]
            refine ⟨disableSpec_refl st, ?_, ?_⟩
            · intro _
              refine ⟨rfl, ?_⟩
              intro h
              cases h
            · intro id2 hinj h
              cases h
          | some cls =>
            rcases hdeps : disableGo fuel st
                (.inr (getDependentExtensions st id)) with ⟨st1, evs1, r1⟩
            have ihd := ih st (.inr (getDependentExtensions st id))
            rw [hdeps] at ihd
            dsimp only at ihd
            obtain ⟨D1, ihdWf, -⟩ := ihd
            by_cases hr1 : r1 = .ok
            · subst hr1
              obtain ⟨U2s, U2i, U2l, U2b, U2g, U2a, U2c⟩ :=
                uninstallExtension_spec st1 id
              obtain ⟨U3s, U3i, U3l, U3b, U3g, U3a, U3c⟩ :=
                uninitExtension_spec (uninstallExtension st1 id).1 id cls
              obtain ⟨F1, F2, F3, F4, F5⟩ :=
                finishDisable_spec
                  (uninitExtension (uninstallExtension st1 id).1 id cls).1
                  id
              have heq : disableGo (fuel + 1) st (.inl id) =
                  ((finishDisable
                     (uninitExtension (uninstallExtension st1 id).1 id
                       cls).1 id).1,
                   evs1 ++ (uninstallExtension st1 id).2 ++
                     (uninitExtension (uninstallExtension st1 id).1 id
                       cls).2 ++
                     [Event.unregisteredStaticBundles id] ++
                     (finishDisable
                       (uninitExtension (uninstallExtension st1 id).1 id
                         cls).1 id).2,
                   .ok) := by
                simp [disableGo, hle, hi, hcls, hdeps]
              have Eunreg : DisableSpec
                  (uninitExtension (uninstallExtension st1 id).1 id cls).1
                  (uninitExtension (uninstallExtension st1 id).1 id cls).1
                  [Event.unregisteredStaticBundles id] :=
                ⟨rfl, rfl, le_refl _, fun _ => ⟨rfl, rfl⟩,
                 by simp [replayInstances, applyCascadeEvent],
                 fun x hx => hx, fun x hx => hx, fun hn => hn⟩
              have Dall := disableSpec_trans (disableSpec_trans (disableSpec_trans (disableSpec_trans D1 U2s) U3s) Eunreg) F1
              rw [heq]
              refine ⟨?_, ?_, ?_⟩
              · simpa [List.append_assoc] using Dall
              · intro hwf
                have hdis : ∀ x ∈ getDependentExtensions st id,
                    x ∉ st1.instances :=
                  fun x hx => ((ihdWf hwf).2 rfl).2 _ rfl x hx
                have hall := @dependents_clear st st1 id hdis
                have hall2 : ((uninstallExtension st1 id).1.instances.all
                    (fun d => d == id ||
                      !((reqOf st.classes d).contains id))) = true := by
                  rw [U2i]
                  exact hall
                constructor
                · have hS1 : replayInstances st.instances evs1 =
                      st1.instances := D1.2.2.2.2.1.symm
                  have hS2 : replayInstances st1.instances
                      (uninstallExtension st1 id).2 =
                      (uninstallExtension st1 id).1.instances :=
                    U2s.2.2.2.2.1.symm
                  have hS3 : replayInstances
                      (uninstallExtension st1 id).1.instances
                      (uninitExtension (uninstallExtension st1 id).1 id
                        cls).2 =
                      (uninitExtension (uninstallExtension st1 id).1 id
                        cls).1.instances :=
                    U3s.2.2.2.2.1.symm
                  have hS4 : replayInstances
                      (uninitExtension (uninstallExtension st1 id).1 id
                        cls).1.instances
                      [Event.unregisteredStaticBundles id] =
                      (uninitExtension (uninstallExtension st1 id).1 id
                        cls).1.instances := by
                    simp [replayInstances, applyCascadeEvent]
                  rw [cascadeOK_append, cascadeOK_append, cascadeOK_append,
                    cascadeOK_append]
                  simp only [replayInstances_append]
                  rw [hS1, hS2, hS3, hS4]
                  simp only [Bool.and_eq_true]
                  refine ⟨⟨⟨⟨(ihdWf hwf).1, ?_⟩, ?_⟩, ?_⟩, ?_⟩
                  · exact U2c _ _ hall
                  · exact U3c _ _ hall2
                  · simp [cascadeOK, applyCascadeEvent]
                  · exact F2 _ _
                · intro _
                  constructor
                  · intro id2 hinj
                    cases hinj
                    rw [F4, U3i]
                    intro hc
                    have hnd2 : (uninstallExtension st1 id).1.instances.Nodup := by
                      rw [U2i]
                      exact D1.2.2.2.2.2.2.2 hwf.1
                    exact ((List.Nodup.mem_erase_iff hnd2).mp hc).1 rfl
                  · intro ids2 hinj
                    cases hinj
              · intro id2 hinj _ hmem hbf
                cases hinj
                have hb3 : (uninitExtension (uninstallExtension st1 id).1 id
                    cls).1.blockSyncGen = false := by
                  rw [U3b, U2b, D1.2.1, hbf]
                obtain ⟨hlt, haj⟩ := F3 hb3
                refine ⟨?_, haj⟩
                calc st.syncGen ≤ st1.syncGen := D1.2.2.1
                  _ = (uninstallExtension st1 id).1.syncGen := U2g.symm
                  _ = (uninitExtension (uninstallExtension st1 id).1 id
                      cls).1.syncGen := U3g.symm
                  _ < _ := hlt
            · have heq : disableGo (fuel + 1) st (.inl id) =
                  (st1, evs1, r1) := by
                rcases r1 with _ | _ | _ | _ | _ | _ | _
                · exact absurd rfl hr1
                all_goals simp [disableGo, hle, hi, hcls, hdeps]
              rw [heq]
              refine ⟨D1, ?_, ?_⟩
              · intro hwf
                refine ⟨(ihdWf hwf).1, ?_⟩
                intro h
                exact absurd h hr1
              · intro id2 hinj h
                exact absurd h hr1
        · have heq : disableGo (fuel + 1) st (.inl id) = (st, [], .ok) := by
            simp [disableGo, hle, hi]
          rw [heq]
          refine ⟨disableSpec_refl st, ?_, ?_⟩
          · intro _
            refine ⟨rfl, ?_⟩
            intro _
            constructor
            · intro id2 hinj
              cases hinj
              exact hi
            · intro ids2 hinj
              cases hinj
          · intro id2 hinj _ hmem _
            cases hinj
            rcases hmem with hmem | hmem
            · exact absurd hmem hi
            · exact absurd hmem hle
    · rcases ids with _ | ⟨id, rest⟩
      · have heq : disableGo (fuel + 1) st (.inr []) = (st, [], .ok) := by
          simp [disableGo]
        rw [heq]
        refine ⟨disableSpec_refl st, ?_, ?_⟩
        · intro _
          refine ⟨rfl, ?_⟩
          intro _
          constructor
          · intro id2 hinj
            cases hinj
          · intro ids2 hinj
            cases hinj
            intro x hx
            cases hx
        · intro id2 hinj
          cases hinj
      · rcases hhd : disableGo fuel st (.inl id) with ⟨st1, evs1, r1⟩
        have ihh := ih st (.inl id)
        rw [hhd] at ihh
        dsimp only at ihh
        obtain ⟨G1, ihhWf, -⟩ := ihh
        by_cases hr1 : r1 = .ok
        · subst hr1
          rcases hrest : disableGo fuel st1 (.inr rest) with ⟨st2, evs2, r⟩
          have ihrr := ih st1 (.inr rest)
          rw [hrest] at ihrr
          dsimp only at ihrr
          obtain ⟨G2, ihrrWf, -⟩ := ihrr
          have heq : disableGo (fuel + 1) st (.inr (id :: rest)) =
              (st2, evs1 ++ evs2, r) := by
            simp [disableGo, hhd, hrest]
          rw [heq]
          refine ⟨disableSpec_trans G1 G2, ?_, ?_⟩
          · intro hwf
            have hwf1 : MgrWf st1 := wf_of_disableSpec hwf G1
            constructor
            · rw [cascadeOK_append]
              have hS1 : replayInstances st.instances evs1 =
                  st1.instances := G1.2.2.2.2.1.symm
              rw [hS1]
              have hcl : reqOf st1.classes = reqOf st.classes := by
                rw [G1.1]
              simp only [Bool.and_eq_true]
              refine ⟨(ihhWf hwf).1, ?_⟩
              rw [← hcl]
              exact (ihrrWf hwf1).1
            · intro h
              constructor
              · intro id2 hinj
                cases hinj
              · intro ids2 hinj
                cases hinj
                intro x hx
                rcases List.mem_cons.mp hx with rfl | hx
                · intro hc
                  exact (((ihhWf hwf).2 rfl).1 x rfl)
                    (G2.2.2.2.2.2.1 x hc)
                · exact ((ihrrWf hwf1).2 h).2 rest rfl x hx
          · intro id2 hinj
            cases hinj
        · have heq : disableGo (fuel + 1) st (.inr (id :: rest)) =
              (st1, evs1, r1) := by
            rcases r1 with _ | _ | _ | _ | _ | _ | _
            · exact absurd rfl hr1
            all_goals simp [disableGo, hhd]
          rw [heq]
          refine ⟨G1, ?_, ?_⟩
          · intro hwf
            refine ⟨(ihhWf hwf).1, ?_⟩
            intro h
            exact absurd h hr1
          · intro id2 hinj
            cases hinj

/-- **C1**, counterexample: a migration failure while enabling `demo.A`
(which requires `demo.B`) leaves `demo.A` in the instance table with a
recorded load error, violating manager well-formedness; from that
reachable state, `disable_extension` of the dependency `demo.B` succeeds,
yet the trace is not dependency-ordered: `demo.B` is uninstalled while its
broken dependent `demo.A` remains enabled, because the load-error branch
of `disable_extension` clears the error without uninitializing the
dependent. -/
theorem C1_dependency_cascades_counterexample :
    (enableExtension 5 demoMgrStateMigrateFail "demo.A").2.2 =
      .errInstall ∧
    "demo.A" ∈ demoMgrStateBroken.instances ∧
    "demo.A" ∈ demoMgrStateBroken.loadErrors ∧
    ¬ MgrWf demoMgrStateBroken ∧
    (disableExtension 5 demoMgrStateBroken "demo.B").2.2 = .ok ∧
    cascadeOK (reqOf demoMgrStateBroken.classes)
      demoMgrStateBroken.instances
      (disableExtension 5 demoMgrStateBroken "demo.B").2.1 = false ∧
    "demo.A" ∈ (disableExtension 5 demoMgrStateBroken "demo.B").1.instances ∧
    "demo.B" ∉
      (disableExtension 5 demoMgrStateBroken "demo.B").1.instances := by
  decide

/-- **C1** (amended: the disable-side ordering holds for well-formed
managers, where no enabled extension carries a recorded load error; a
migration failure while enabling produces a reachable state outside that
set, for which the counterexample shows the ordering fails): every trace
of `enable_extension` initializes an extension only when all of its
requirements are already enabled (so dependencies are enabled before
dependents, recursively), and on success the extension ends up enabled;
every trace of `disable_extension` on a well-formed manager uninstalls and
uninitializes an extension only when no other enabled extension still
requires it (so enabled dependents are disabled first), and on success the
extension ends up disabled. -/
theorem C1_dependency_cascades (fuel : Nat) (st : MgrState) (id : String) :
    (cascadeOK (reqOf st.classes) st.instances
       (enableExtension fuel st id).2.1 = true ∧
     ((enableExtension fuel st id).2.2 = .ok →
       id ∈ (enableExtension fuel st id).1.instances)) ∧
    (MgrWf st →
      cascadeOK (reqOf st.classes) st.instances
        (disableExtension fuel st id).2.1 = true ∧
      ((disableExtension fuel st id).2.2 = .ok →
        id ∉ (disableExtension fuel st id).1.instances)) := by
  refine ⟨⟨?_, ?_⟩, ?_⟩
  · exact (enableGo_spec fuel st (.inl id)).1.2.2.2.2.2.2
  · intro h
    exact ((enableGo_spec fuel st (.inl id)).2.1 h).1 id rfl
  · intro hwf
    refine ⟨((disableGo_spec fuel st (.inl id)).2.1 hwf).1, ?_⟩
    intro h
    exact (((disableGo_spec fuel st (.inl id)).2.1 hwf).2 h).1 id rfl

/-- Witness for C1 at concrete inputs: enabling `demo.A` (which requires
`demo.B`) from scratch, and disabling `demo.B` with its dependent `demo.A`
enabled. -/
theorem C1_dependency_cascades_witness :
    (cascadeOK (reqOf demoMgrState.classes) demoMgrState.instances
       (enableExtension 5 demoMgrState "demo.A").2.1 = true ∧
     ((enableExtension 5 demoMgrState "demo.A").2.2 = .ok →
       "demo.A" ∈ (enableExtension 5 demoMgrState "demo.A").1.instances)) ∧
    (cascadeOK (reqOf demoMgrStateEnabled.classes)
       demoMgrStateEnabled.instances
       (disableExtension 5 demoMgrStateEnabled "demo.B").2.1 = true ∧
     ((disableExtension 5 demoMgrStateEnabled "demo.B").2.2 = .ok →
       "demo.B" ∉
         (disableExtension 5 demoMgrStateEnabled "demo.B").1.instances)) :=
  ⟨(C1_dependency_cascades 5 demoMgrState "demo.A").1,
   (C1_dependency_cascades 5 demoMgrStateEnabled "demo.B").2 (by decide)⟩

/-- **C2**, counterexample: with an extension whose
`install_extension_media` step raises `InstallExtensionError`,
`enable_extension` raises `EnablingExtensionError` but the extension still
appears in `get_enabled_extensions()` afterwards — the partially applied
changes are not rolled back. -/
theorem C2_rollback_counterexample :
    (enableExtension 2 demoMgrStateMediaFail "demo.A").2.2 =
      .errEnabling ∧
    "demo.A" ∈ (enableExtension 2 demoMgrStateMediaFail "demo.A").1.instances := by
  decide

/-- **C2** (amended: no rollback of the in-memory instance table happens
for media-install failures): once the requirements of an extension have
been successfully enabled, if the extension class constructor raises,
`enable_extension` raises `EnablingExtensionError`, a load error is
recorded, the extension is not in `get_enabled_extensions()` and its
registration is unchanged; if `install_extension_media` raises
`InstallExtensionError`, `enable_extension` raises
`EnablingExtensionError` and the registration of the extension is
unchanged, but the extension remains in `get_enabled_extensions()`. -/
theorem C2_enable_failure_handling (fuel : Nat) (st st1 : MgrState)
    (id : String) (cls : ExtensionClass) (evs1 : List Event)
    (hcls : aget st.classes id = some cls) (hi : id ∉ st.instances)
    (hreq : enableGo fuel st (.inr cls.requirements) = (st1, evs1, .ok)) :
    (cls.ctorRaises = true →
      enableExtension (fuel + 1) st id =
        (storeLoadError st1 id, evs1, .errEnabling) ∧
      id ∉ (storeLoadError st1 id).instances ∧
      id ∈ (storeLoadError st1 id).loadErrors ∧
      aget (storeLoadError st1 id).registrations id =
        aget st.registrations id) ∧
    (cls.ctorRaises = false → cls.mediaInstallRaises = true →
      (enableExtension (fuel + 1) st id).2.2 = .errEnabling ∧
      (enableExtension (fuel + 1) st id).1.instances =
        st1.instances ++ [id] ∧
      aget (enableExtension (fuel + 1) st id).1.registrations id =
        aget st.registrations id) := by
  have hregs : ∀ x, x ∉ st1.instances →
      aget st1.registrations x = aget st.registrations x := by
    intro x hx
    have h := (enableGo_aux fuel st (.inr cls.requirements)).1 x
    rw [hreq] at h
    exact h hx
  constructor
  · intro hc
    have hi1 : id ∉ st1.instances := by
      have h := (enableGo_aux fuel st (.inr cls.requirements)).2 id cls hcls
        (Or.inl hc) hi
      rw [hreq] at h
      exact h rfl
    have hinit : initExtension st1 id cls =
        (storeLoadError st1 id, [], .errEnabling) :=
      initExtension_eq_ctor hi1 hc
    have heq : enableExtension (fuel + 1) st id =
        (storeLoadError st1 id, evs1, .errEnabling) := by
      simp [enableExtension, enableGo, hi, hcls, hreq, hinit]
    refine ⟨heq, hi1, ?_, ?_⟩
    · show id ∈ (storeLoadError st1 id).loadErrors
      unfold storeLoadError
      by_cases h : id ∈ st1.loadErrors <;> simp [h]
    · show aget st1.registrations id = aget st.registrations id
      exact hregs id hi1
  · intro hc hm
    have hi1 : id ∉ st1.instances := by
      have h := (enableGo_aux fuel st (.inr cls.requirements)).2 id cls hcls
        (Or.inr hm) hi
      rw [hreq] at h
      exact h rfl
    have hinit : initExtension st1 id cls =
        (initMutations st1 id cls,
         [.initialized id, .registeredStaticBundles id,
          .clearedTemplateTagCaches], .errEnabling) :=
      initExtension_eq_media hi1 hc hm
    have heq : enableExtension (fuel + 1) st id =
        (initMutations st1 id cls,
         evs1 ++ [.initialized id, .registeredStaticBundles id,
          .clearedTemplateTagCaches], .errEnabling) := by
      simp [enableExtension, enableGo, hi, hcls, hreq, hinit]
    rw [heq]
    exact ⟨rfl, rfl, hregs id hi1⟩

/-- Witness for C2 at concrete inputs: an extension with a requirement and
a failing constructor, and one with a requirement and a failing media
installation. -/
theorem C2_enable_failure_handling_witness :
    ((demoFailingDepClass true false).ctorRaises = true →
      enableExtension 4 demoMgrStateDepCtorFail "demo.A" =
        (storeLoadError demoDepCtorSt1 "demo.A", demoDepCtorEvs1,
         .errEnabling) ∧
      "demo.A" ∉ (storeLoadError demoDepCtorSt1 "demo.A").instances ∧
      "demo.A" ∈ (storeLoadError demoDepCtorSt1 "demo.A").loadErrors ∧
      aget (storeLoadError demoDepCtorSt1 "demo.A").registrations
          "demo.A" =
        aget demoMgrStateDepCtorFail.registrations "demo.A") ∧
    ((demoFailingDepClass false true).ctorRaises = false →
      (demoFailingDepClass false true).mediaInstallRaises = true →
      (enableExtension 4 demoMgrStateDepMediaFail "demo.A").2.2 =
        .errEnabling ∧
      (enableExtension 4 demoMgrStateDepMediaFail "demo.A").1.instances =
        demoDepMediaSt1.instances ++ ["demo.A"] ∧
      aget
          (enableExtension 4 demoMgrStateDepMediaFail
            "demo.A").1.registrations "demo.A" =
        aget demoMgrStateDepMediaFail.registrations "demo.A") :=
  ⟨(C2_enable_failure_handling 3 demoMgrStateDepCtorFail demoDepCtorSt1
      "demo.A" (demoFailingDepClass true false) demoDepCtorEvs1
      (by decide) (by decide) rfl).1,
   (C2_enable_failure_handling 3 demoMgrStateDepMediaFail demoDepMediaSt1
      "demo.A" (demoFailingDepClass false true) demoDepMediaEvs1
      (by decide) (by decide) rfl).2⟩

/-- **C5**: a successful `enable_extension` of a not-yet-enabled extension,
and a successful `disable_extension` that disables an extension or clears a
load error, bump the generation synchronizer and store the new generation
into `settings.AJAX_SERIAL`; while `_block_sync_gen` is set the generation
value and `AJAX_SERIAL` are left untouched. -/
theorem C5_sync_gen_bump (fuel : Nat) (st : MgrState) (id : String) :
    ((enableExtension fuel st id).2.2 = .ok → id ∉ st.instances →
      st.blockSyncGen = false →
      st.syncGen < (enableExtension fuel st id).1.syncGen ∧
      (enableExtension fuel st id).1.ajaxSerial =
        (enableExtension fuel st id).1.syncGen) ∧
    (st.blockSyncGen = true →
      (enableExtension fuel st id).1.syncGen = st.syncGen ∧
      (enableExtension fuel st id).1.ajaxSerial = st.ajaxSerial) ∧
    ((disableExtension fuel st id).2.2 = .ok →
      (id ∈ st.instances ∨ id ∈ st.loadErrors) → st.blockSyncGen = false →
      st.syncGen < (disableExtension fuel st id).1.syncGen ∧
      (disableExtension fuel st id).1.ajaxSerial =
        (disableExtension fuel st id).1.syncGen) ∧
    (st.blockSyncGen = true →
      (disableExtension fuel st id).1.syncGen = st.syncGen ∧
      (disableExtension fuel st id).1.ajaxSerial = st.ajaxSerial) := by
  refine ⟨?_, ?_, ?_, ?_⟩
  · intro h hni hbf
    exact (enableGo_spec fuel st (.inl id)).2.2 id rfl h hni hbf
  · intro hb
    exact (enableGo_spec fuel st (.inl id)).1.2.2.2.1 hb
  · intro h hmem hbf
    exact (disableGo_spec fuel st (.inl id)).2.2 id rfl h hmem hbf
  · intro hb
    exact (disableGo_spec fuel st (.inl id)).1.2.2.2.1 hb

/-- Witness for C5 at concrete inputs: a successful enable, an enable with
the sync-generation blocked, and a successful disable. -/
theorem C5_sync_gen_bump_witness :
    (demoMgrState.syncGen <
       (enableExtension 5 demoMgrState "demo.A").1.syncGen ∧
     (enableExtension 5 demoMgrState "demo.A").1.ajaxSerial =
       (enableExtension 5 demoMgrState "demo.A").1.syncGen) ∧
    ((enableExtension 5 demoMgrStateBlocked "demo.A").1.syncGen =
       demoMgrStateBlocked.syncGen ∧
     (enableExtension 5 demoMgrStateBlocked "demo.A").1.ajaxSerial =
       demoMgrStateBlocked.ajaxSerial) ∧
    (demoMgrStateEnabled.syncGen <
       (disableExtension 5 demoMgrStateEnabled "demo.B").1.syncGen ∧
     (disableExtension 5 demoMgrStateEnabled "demo.B").1.ajaxSerial =
       (disableExtension 5 demoMgrStateEnabled "demo.B").1.syncGen) :=
  ⟨(C5_sync_gen_bump 5 demoMgrState "demo.A").1 (by decide) (by decide) rfl,
   (C5_sync_gen_bump 5 demoMgrStateBlocked "demo.A").2.1 rfl,
   (C5_sync_gen_bump 5 demoMgrStateEnabled "demo.B").2.2.1 (by decide)
     (Or.inl (by decide)) (by decide)⟩

/-- **C8**: `enable_extension` on an already-enabled extension and
`disable_extension` on an extension that is neither enabled nor has a
recorded load error return immediately with the manager state unchanged and
no side effects (no registration save, no sync-generation bump, no
template-cache clear, no middleware recalculation). -/
theorem C8_redundant_enable_disable_noop (fuel : Nat) (st : MgrState)
    (id : String) (hf : 0 < fuel) :
    (id ∈ st.instances → enableExtension fuel st id = (st, [], .ok)) ∧
    (id ∉ st.instances → id ∉ st.loadErrors →
      disableExtension fuel st id = (st, [], .ok)) := by
  obtain ⟨fuel, rfl⟩ : ∃ n, fuel = n + 1 := ⟨fuel - 1, by omega⟩
  constructor
  · intro hi
    simp [enableExtension, enableGo, hi]
  · intro hi hle
    simp [disableExtension, disableGo, hi, hle]

/-- Witness for C8 at concrete inputs. -/
theorem C8_redundant_enable_disable_noop_witness :
    ("demo.A" ∈ demoMgrStateEnabled.instances →
      enableExtension 1 demoMgrStateEnabled "demo.A" =
        (demoMgrStateEnabled, [], .ok)) ∧
    ("demo.A" ∉ demoMgrState.instances →
      "demo.A" ∉ demoMgrState.loadErrors →
      disableExtension 1 demoMgrState "demo.A" =
        (demoMgrState, [], .ok)) :=
  ⟨(C8_redundant_enable_disable_noop 1 demoMgrStateEnabled "demo.A"
      (by decide)).1,
   (C8_redundant_enable_disable_noop 1 demoMgrState "demo.A"
      (by decide)).2⟩

end Djblets
